import Mathlib

/-!
Verification of the RoK title-bot core against its specification.

The Python sources embedded here (shallowly) are:
* `roktracker/utils/title_tracker.py` — `TitleRequestTracker` (dedup cache,
  per-player stats, grants);
* `roktracker/utils/game_state.py` — `StateDetector.detect_state` and its
  pixel heuristics, `IntelligentRecovery`;
* `roktracker/utils/vision_system.py` — `ChatParser` (OCR cleaning,
  message segmentation, title extraction);
* `title_bot.py` — `safe_escape`, `ensure_idle`, UI constants.

Modelling conventions: Python floats are modelled as rationals (`ℚ`);
timestamps are explicit `ℚ` parameters instead of `time.time()`; Python
dicts keyed by strings are association lists in insertion order; the MD5
content hash of the dedup cache is modelled by the hashed content string
itself (collision-freeness of MD5 is assumed); logging, file persistence
and API sync are side effects outside the modelled state and are dropped.
-/

/-! ## Python string primitives used by the sources -/

/-- Python `\s` / `str.strip` whitespace test, for the character ranges the
pipeline meets: ASCII whitespace plus the common Unicode space characters
(category Zs and the line/paragraph separators). -/
def pyIsSpace (c : Char) : Bool :=
  c.toNat = 0x20 || c.toNat = 0x9 || c.toNat = 0xA || c.toNat = 0xD ||
  c.toNat = 0xB || c.toNat = 0xC || c.toNat = 0xA0 || c.toNat = 0x1680 ||
  (0x2000 ≤ c.toNat && c.toNat ≤ 0x200A) ||
  c.toNat = 0x2028 || c.toNat = 0x2029 || c.toNat = 0x202F ||
  c.toNat = 0x205F || c.toNat = 0x3000

/-- Python `str.lower`, modelled for the ASCII letters that the tracked
keys contain (`Char.toLower` agrees with Python there). -/
def pyLower (s : String) : String :=
  ⟨s.data.map Char.toLower⟩

/-- Drop leading whitespace characters (the left half of `str.strip`). -/
def dropLeadingWs (l : List Char) : List Char :=
  l.dropWhile pyIsSpace

/-- Python `str.strip`: drop whitespace at both ends. -/
def pyStripList (l : List Char) : List Char :=
  ((l.dropWhile pyIsSpace).reverse.dropWhile pyIsSpace).reverse

/-- Python `str.strip` on strings. -/
def pyStrip (s : String) : String :=
  ⟨pyStripList s.data⟩

/-! ## Title request tracker (`title_tracker.py`)

`TitleRequest` and `PlayerTitleStats` are the two dataclasses; the tracker
state is the mutable fields of `TitleRequestTracker` that the tracked
claims mention. -/

/-- Dataclass `TitleRequest` (title_tracker.py). -/
structure TitleRequest where
  player_name : String
  alliance_tag : String
  title_type : String
  timestamp : ℚ
  was_granted : Bool := false
  granted_at : Option ℚ := none
deriving Repr, DecidableEq

/-- Dataclass `PlayerTitleStats` (title_tracker.py). The computed
`@property` members are functions below, not fields. -/
structure PlayerTitleStats where
  player_name : String
  alliance_tag : String
  governor_id : Option String := none
  duke_requests : ℕ := 0
  scientist_requests : ℕ := 0
  architect_requests : ℕ := 0
  justice_requests : ℕ := 0
  duke_grants : ℕ := 0
  scientist_grants : ℕ := 0
  architect_grants : ℕ := 0
  justice_grants : ℕ := 0
  first_request : Option ℚ := none
  last_request : Option ℚ := none
  total_requests : ℕ := 0
  total_grants : ℕ := 0
  recent_request_times : List ℚ := []
deriving Repr, DecidableEq

/-- `PlayerTitleStats.add_request`: bump totals and the per-type counter,
set first/last timestamps, and refresh the one-hour rolling window. -/
def PlayerTitleStats.add_request (s : PlayerTitleStats) (title_type : String)
    (timestamp : ℚ) : PlayerTitleStats :=
  let s := { s with total_requests := s.total_requests + 1 }
  let s :=
    if title_type = "duke" then { s with duke_requests := s.duke_requests + 1 }
    else if title_type = "scientist" then
      { s with scientist_requests := s.scientist_requests + 1 }
    else if title_type = "architect" then
      { s with architect_requests := s.architect_requests + 1 }
    else if title_type = "justice" then
      { s with justice_requests := s.justice_requests + 1 }
    else s
  let s :=
    if s.first_request = none then { s with first_request := some timestamp } else s
  let s := { s with last_request := some timestamp }
  let hour_ago := timestamp - 3600
  { s with recent_request_times :=
      (s.recent_request_times.filter (fun t => hour_ago < t)) ++ [timestamp] }

/-- `PlayerTitleStats.add_grant`: bump grant totals and the per-type grant
counter. -/
def PlayerTitleStats.add_grant (s : PlayerTitleStats) (title_type : String)
    (_timestamp : ℚ) : PlayerTitleStats :=
  let s := { s with total_grants := s.total_grants + 1 }
  if title_type = "duke" then { s with duke_grants := s.duke_grants + 1 }
  else if title_type = "scientist" then
    { s with scientist_grants := s.scientist_grants + 1 }
  else if title_type = "architect" then
    { s with architect_grants := s.architect_grants + 1 }
  else if title_type = "justice" then
    { s with justice_grants := s.justice_grants + 1 }
  else s

/-- The mutable state of `TitleRequestTracker`. Dicts are association
lists in insertion order (new keys are appended). -/
structure TitleRequestTracker where
  player_stats : List (String × PlayerTitleStats) := []
  recent_requests : List TitleRequest := []
  seen_messages : List (String × ℚ) := []
  seen_messages_ttl : ℚ := 3600
  session_requests : ℕ := 0
  session_grants : ℕ := 0
deriving Repr, DecidableEq

/-- Dict lookup (Python `d[k]` / `k in d`) on an association list. -/
def dictGet (l : List (String × ℚ)) (k : String) : Option ℚ :=
  (l.find? (fun kv => kv.1 = k)).map Prod.snd

/-- Dict lookup for the player-stats map. -/
def statsGet (l : List (String × PlayerTitleStats)) (k : String) :
    Option PlayerTitleStats :=
  (l.find? (fun kv => kv.1 = k)).map Prod.snd

/-- Dict assignment `d[k] = v`: replace in place when the key exists,
append otherwise. -/
def statsSet (l : List (String × PlayerTitleStats)) (k : String)
    (v : PlayerTitleStats) : List (String × PlayerTitleStats) :=
  if (l.find? (fun kv => kv.1 = k)).isSome then
    l.map (fun kv => if kv.1 = k then (k, v) else kv)
  else l ++ [(k, v)]

/-- `TitleRequestTracker._normalize_name`: `name.lower().strip()`. -/
def _normalize_name (name : String) : String :=
  pyStrip (pyLower name)

/-- `TitleRequestTracker._get_message_hash`: the MD5 of
`f"{normalized}:{title.lower()}"` — modelled by the hashed content itself
(MD5 is injective on the inputs considered). -/
def _get_message_hash (player_name title_type : String) : String :=
  _normalize_name player_name ++ ":" ++ pyLower title_type

/-- `TitleRequestTracker._cleanup_seen_messages`: drop entries whose first
seen timestamp is not strictly newer than `current_time - ttl`. -/
def _cleanup_seen_messages (tr : TitleRequestTracker) (current_time : ℚ) :
    TitleRequestTracker :=
  let cutoff := current_time - tr.seen_messages_ttl
  { tr with seen_messages := tr.seen_messages.filter (fun kv => cutoff < kv.2) }

/-- `TitleRequestTracker.track_request`. `timestamp` stands for the
`time.time()` call at the top of the method. Returns the
`(was_tracked, message)` pair together with the new tracker state; the
human-readable message texts are abbreviated (the claims only inspect the
boolean). Logging, periodic `_save_data` and `_sync_to_api` are side
effects outside the modelled state. -/
def track_request (tr : TitleRequestTracker) (timestamp : ℚ)
    (player_name alliance_tag title_type : String) :
    (Bool × String) × TitleRequestTracker :=
  let normalized_name := _normalize_name player_name
  let msg_hash := _get_message_hash player_name title_type
  -- Cleanup old seen messages periodically (only when the dict is large).
  let tr := if 100 < tr.seen_messages.length
    then _cleanup_seen_messages tr timestamp else tr
  match dictGet tr.seen_messages msg_hash with
  | some _ => ((false, "Already seen"), tr)
  | none =>
    let tr := { tr with seen_messages := tr.seen_messages ++ [(msg_hash, timestamp)] }
    let cutoff := timestamp - 120
    let tr := { tr with recent_requests :=
        tr.recent_requests.filter (fun r => cutoff < r.timestamp) }
    let request : TitleRequest :=
      { player_name := player_name, alliance_tag := alliance_tag,
        title_type := title_type, timestamp := timestamp }
    let tr := { tr with recent_requests := tr.recent_requests ++ [request] }
    let stats := (statsGet tr.player_stats normalized_name).getD
      { player_name := player_name, alliance_tag := alliance_tag }
    let stats := if alliance_tag ≠ "" ∧ alliance_tag ≠ stats.alliance_tag
      then { stats with alliance_tag := alliance_tag } else stats
    let stats := stats.add_request title_type timestamp
    let tr := { tr with player_stats := statsSet tr.player_stats normalized_name stats }
    let tr := { tr with session_requests := tr.session_requests + 1 }
    ((true, "Tracked"), tr)

/-- Flip `was_granted` on the first request of the list that matches
the player and title and is un-granted; leave the rest alone. Applied to
the reversed list this is the `for req in reversed(...)` loop with its
`break`. -/
def markFirstGrant (normalized title_type : String) (now : ℚ) :
    List TitleRequest → List TitleRequest
  | [] => []
  | r :: rest =>
    if _normalize_name r.player_name = normalized ∧
        r.title_type = title_type ∧ r.was_granted = false then
      { r with was_granted := true, granted_at := some now } :: rest
    else r :: markFirstGrant normalized title_type now rest

/-- `TitleRequestTracker.record_grant`. `now` stands for the
`time.time()` calls inside the method. -/
def record_grant (tr : TitleRequestTracker) (now : ℚ)
    (player_name title_type : String) : Bool × TitleRequestTracker :=
  let normalized_name := _normalize_name player_name
  match statsGet tr.player_stats normalized_name with
  | none => (false, tr)
  | some stats =>
    let stats := stats.add_grant title_type now
    let tr := { tr with player_stats := statsSet tr.player_stats normalized_name stats }
    let tr := { tr with recent_requests :=
        (markFirstGrant normalized_name title_type now
          tr.recent_requests.reverse).reverse }
    let tr := { tr with session_grants := tr.session_grants + 1 }
    let msg_hash := _get_message_hash player_name title_type
    let tr := { tr with seen_messages :=
        tr.seen_messages.filter (fun kv => kv.1 ≠ msg_hash) }
    (true, tr)

/-- `TitleRequestTracker.reset_seen_messages`. -/
def reset_seen_messages (tr : TitleRequestTracker) : TitleRequestTracker :=
  { tr with seen_messages := [] }

/-- `TitleRequestTracker.clear_player_from_seen`: clear one title's hash,
or all four titles when no title is given. -/
def clear_player_from_seen (tr : TitleRequestTracker) (player_name : String)
    (title_type : Option String) : TitleRequestTracker :=
  match title_type with
  | some t =>
    let msg_hash := _get_message_hash player_name t
    { tr with seen_messages := tr.seen_messages.filter (fun kv => kv.1 ≠ msg_hash) }
  | none =>
    let hs := ["duke", "scientist", "architect", "justice"].map
      (fun t => _get_message_hash player_name t)
    { tr with seen_messages :=
        tr.seen_messages.filter (fun kv => !(hs.contains kv.1)) }

/-! ### Association-list lemmas for the dedup cache -/

theorem dictGet_cons (a : String × ℚ) (t : List (String × ℚ)) (k : String) :
    dictGet (a :: t) k = if a.1 = k then some a.2 else dictGet t k := by
  by_cases h : a.1 = k <;> simp [dictGet, List.find?, h]

theorem dictGet_eq_none_iff (l : List (String × ℚ)) (k : String) :
    dictGet l k = none ↔ ∀ kv ∈ l, kv.1 ≠ k := by
  induction l with
  | nil => simp [dictGet]
  | cons a t ih =>
    rw [dictGet_cons]
    by_cases h : a.1 = k <;> simp [h, ih]

theorem dictGet_filter_none {l : List (String × ℚ)} {k : String}
    (P : String × ℚ → Bool) (h : dictGet l k = none) :
    dictGet (l.filter P) k = none := by
  rw [dictGet_eq_none_iff] at h ⊢
  intro kv hkv
  exact h kv (List.mem_of_mem_filter hkv)

theorem dictGet_append_single {l : List (String × ℚ)} {k : String} (v : ℚ)
    (h : dictGet l k = none) : dictGet (l ++ [(k, v)]) k = some v := by
  induction l with
  | nil => simp [dictGet, List.find?]
  | cons a t ih =>
    rw [dictGet_cons] at h
    rcases ite_eq_iff.mp h with ⟨_, h2⟩ | ⟨hne, h2⟩
    · exact absurd h2 (by simp)
    · rw [List.cons_append, dictGet_cons, if_neg hne]
      exact ih h2

theorem dictGet_filter_append {l : List (String × ℚ)} {k : String} {v : ℚ}
    (P : String × ℚ → Bool) (h : dictGet l k = none) :
    dictGet ((l ++ [(k, v)]).filter P) k =
      if P (k, v) then some v else none := by
  have hsing : List.filter P [(k, v)] = if P (k, v) then [(k, v)] else [] := by
    by_cases hp : P (k, v) = true <;> simp [hp]
  rw [List.filter_append, hsing]
  by_cases hp : P (k, v) = true
  · rw [if_pos hp, if_pos hp]
    exact dictGet_append_single v (dictGet_filter_none P h)
  · rw [if_neg hp, if_neg hp, List.append_nil]
    exact dictGet_filter_none P h

theorem dictGet_filter_ne_key (l : List (String × ℚ)) (k : String) :
    dictGet (l.filter (fun kv => kv.1 ≠ k)) k = none := by
  rw [dictGet_eq_none_iff]
  intro kv hkv
  have := List.of_mem_filter hkv
  simpa using this

/-! ### Characterization of `track_request` and `record_grant` -/

/-- Duplicate branch: when the (possibly cleaned) seen-cache already holds
the content hash, `track_request` returns `False` and leaves the tracker
at the possibly-cleaned state. -/
theorem track_request_dup {tr : TitleRequestTracker} {now : ℚ}
    {p tag t : String} {v : ℚ}
    (h : dictGet (if 100 < tr.seen_messages.length then
        _cleanup_seen_messages tr now else tr).seen_messages
        (_get_message_hash p t) = some v) :
    track_request tr now p tag t = ((false, "Already seen"),
      if 100 < tr.seen_messages.length then _cleanup_seen_messages tr now
      else tr) := by
  simp only [track_request]
  rw [h]

/-- New-request branch: when the hash is absent from the (possibly
cleaned) seen-cache, `track_request` returns `True`, appends the hash, and
keeps the TTL field. -/
theorem track_request_new {tr : TitleRequestTracker} {now : ℚ}
    {p tag t : String}
    (h : dictGet (if 100 < tr.seen_messages.length then
        _cleanup_seen_messages tr now else tr).seen_messages
        (_get_message_hash p t) = none) :
    (track_request tr now p tag t).1.1 = true ∧
    (track_request tr now p tag t).2.seen_messages =
      (if 100 < tr.seen_messages.length then _cleanup_seen_messages tr now
       else tr).seen_messages ++ [(_get_message_hash p t, now)] ∧
    (track_request tr now p tag t).2.seen_messages_ttl =
      tr.seen_messages_ttl := by
  simp only [track_request]
  rw [h]
  refine ⟨rfl, rfl, ?_⟩
  by_cases hl : 100 < tr.seen_messages.length <;>
    simp [hl, _cleanup_seen_messages]

/-- Successful branch of `record_grant`: the content hash is dropped from
the seen-cache. -/
theorem record_grant_some {tr : TitleRequestTracker} {now : ℚ}
    {p t : String} {s : PlayerTitleStats}
    (h : statsGet tr.player_stats (_normalize_name p) = some s) :
    (record_grant tr now p t).1 = true ∧
    (record_grant tr now p t).2.seen_messages =
      tr.seen_messages.filter
        (fun kv => kv.1 ≠ _get_message_hash p t) := by
  simp only [record_grant]
  rw [h]
  exact ⟨rfl, rfl⟩

/-- Failing branch of `record_grant`: unknown player, tracker unchanged. -/
theorem record_grant_none {tr : TitleRequestTracker} {now : ℚ}
    {p t : String}
    (h : statsGet tr.player_stats (_normalize_name p) = none) :
    record_grant tr now p t = (false, tr) := by
  simp only [record_grant]
  rw [h]

/-- Positive instance of `dictGet_filter_append`. -/
theorem dictGet_filter_append_pos {l : List (String × ℚ)} {k : String}
    {v : ℚ} (P : String × ℚ → Bool) (h : dictGet l k = none)
    (hp : P (k, v) = true) :
    dictGet ((l ++ [(k, v)]).filter P) k = some v := by
  rw [dictGet_filter_append P h, if_pos hp]

/-- Negative instance of `dictGet_filter_append`. -/
theorem dictGet_filter_append_neg {l : List (String × ℚ)} {k : String}
    {v : ℚ} (P : String × ℚ → Bool) (h : dictGet l k = none)
    (hp : P (k, v) = false) :
    dictGet ((l ++ [(k, v)]).filter P) k = none := by
  rw [dictGet_filter_append P h, hp]
  simp

/-- Projection of `_cleanup_seen_messages` on the seen-cache. -/
theorem cleanup_seen (tr : TitleRequestTracker) (now : ℚ) :
    (_cleanup_seen_messages tr now).seen_messages =
      tr.seen_messages.filter
        (fun kv => now - tr.seen_messages_ttl < kv.2) := rfl

/-- C1 (amended): a fresh `(player, title)` request is tracked
(`isNew = true`); a repeat within the TTL is rejected (`isNew = false`);
after the TTL has expired the repeat is accepted again **only when** the
seen-cache holds more than 100 entries at the time of the repeat (the
expiry cleanup runs only then); with 100 or fewer entries the expired hash
persists and the repeat is still rejected. -/
theorem claim_C1 (tr : TitleRequestTracker) (now : ℚ) (p tag t : String)
    (httl : tr.seen_messages_ttl = 3600)
    (hfresh : dictGet tr.seen_messages (_get_message_hash p t) = none) :
    (track_request tr now p tag t).1.1 = true ∧
    (∀ now', now' - now < 3600 →
      (track_request (track_request tr now p tag t).2 now' p tag t).1.1
        = false) ∧
    (∀ now', 3600 < now' - now →
      (track_request tr now p tag t).2.seen_messages.length ≤ 100 →
      (track_request (track_request tr now p tag t).2 now' p tag t).1.1
        = false) ∧
    (∀ now', 3600 < now' - now →
      100 < (track_request tr now p tag t).2.seen_messages.length →
      (track_request (track_request tr now p tag t).2 now' p tag t).1.1
        = true) := by
  have h0 : dictGet (if 100 < tr.seen_messages.length then
      _cleanup_seen_messages tr now else tr).seen_messages
      (_get_message_hash p t) = none := by
    by_cases hl : 100 < tr.seen_messages.length
    · rw [if_pos hl, cleanup_seen]
      exact dictGet_filter_none _ hfresh
    · rwa [if_neg hl]
  obtain ⟨hb, hseen, httl2⟩ := track_request_new h0
  refine ⟨hb, ?_, ?_, ?_⟩
  · -- repeat within TTL: the hash survives any cleanup and is found
    intro now' hlt
    by_cases hl2 : 100 < (track_request tr now p tag t).2.seen_messages.length
    · have hdup : dictGet (if 100 <
          (track_request tr now p tag t).2.seen_messages.length then
          _cleanup_seen_messages (track_request tr now p tag t).2 now'
          else (track_request tr now p tag t).2).seen_messages
          (_get_message_hash p t) = some now := by
        rw [if_pos hl2, cleanup_seen, hseen]
        refine dictGet_filter_append_pos _ h0 ?_
        simp only [decide_eq_true_eq, httl2, httl]
        linarith
      rw [track_request_dup hdup]
    · have hdup : dictGet (if 100 <
          (track_request tr now p tag t).2.seen_messages.length then
          _cleanup_seen_messages (track_request tr now p tag t).2 now'
          else (track_request tr now p tag t).2).seen_messages
          (_get_message_hash p t) = some now := by
        rw [if_neg hl2, hseen]
        exact dictGet_append_single now h0
      rw [track_request_dup hdup]
  · -- repeat after TTL with a small cache: no cleanup, still rejected
    intro now' _ hlen
    have hl2 : ¬ 100 <
        (track_request tr now p tag t).2.seen_messages.length := by omega
    have hdup : dictGet (if 100 <
        (track_request tr now p tag t).2.seen_messages.length then
        _cleanup_seen_messages (track_request tr now p tag t).2 now'
        else (track_request tr now p tag t).2).seen_messages
        (_get_message_hash p t) = some now := by
      rw [if_neg hl2, hseen]
      exact dictGet_append_single now h0
    rw [track_request_dup hdup]
  · -- repeat after TTL with a large cache: cleanup evicts, accepted again
    intro now' hgt hlen
    have hnew : dictGet (if 100 <
        (track_request tr now p tag t).2.seen_messages.length then
        _cleanup_seen_messages (track_request tr now p tag t).2 now'
        else (track_request tr now p tag t).2).seen_messages
        (_get_message_hash p t) = none := by
      rw [if_pos hlen, cleanup_seen, hseen]
      refine dictGet_filter_append_neg _ h0 ?_
      simp only [decide_eq_false_iff_not, httl2, httl]
      linarith
    exact (track_request_new hnew).1

/-- C1 counterexample: with a small seen-cache (one entry), a repeat of
the same request after the TTL has long expired (time 4000, first seen at
time 0, TTL 3600) is still rejected — the code returns `isNew = false`
where the claim demands `true`, because the expiry cleanup only runs when
the cache holds more than 100 entries. -/
theorem claim_C1_counterexample :
    (track_request {} 0 "alice" "" "duke").1.1 = true ∧
    3600 < (4000 : ℚ) - 0 ∧
    (track_request (track_request {} 0 "alice" "" "duke").2 4000
      "alice" "" "duke").1.1 = false := by
  have h0 : dictGet (if 100 < ({} : TitleRequestTracker).seen_messages.length
      then _cleanup_seen_messages {} 0 else {}).seen_messages
      (_get_message_hash "alice" "duke") = none := by
    rw [if_neg (by decide)]
    rfl
  obtain ⟨hb, hseen, -⟩ := track_request_new h0
  have hs : (track_request {} 0 "alice" "" "duke").2.seen_messages
      = [("alice:duke", (0 : ℚ))] := by
    rw [hseen, if_neg (by decide)]
    rfl
  have hdup : dictGet (if 100 <
      (track_request {} 0 "alice" "" "duke").2.seen_messages.length then
      _cleanup_seen_messages (track_request {} 0 "alice" "" "duke").2 4000
      else (track_request {} 0 "alice" "" "duke").2).seen_messages
      (_get_message_hash "alice" "duke") = some 0 := by
    rw [if_neg (by rw [hs]; decide), hs]
    rfl
  exact ⟨hb, by norm_num, by rw [track_request_dup hdup]⟩

/-- C1 witness: concrete instance of the amended dedup behaviour (fresh
request tracked, repeat at time 100 rejected, repeat at time 4000 still
rejected because the one-entry cache never triggers cleanup). -/
theorem claim_C1_witness :
    (track_request {} 0 "alice" "" "duke").1.1 = true ∧
    (track_request (track_request {} 0 "alice" "" "duke").2 100
      "alice" "" "duke").1.1 = false ∧
    (track_request (track_request {} 0 "alice" "" "duke").2 4000
      "alice" "" "duke").1.1 = false := by
  have h := claim_C1 {} 0 "alice" "" "duke" rfl rfl
  have h0 : dictGet (if 100 < ({} : TitleRequestTracker).seen_messages.length
      then _cleanup_seen_messages {} 0 else {}).seen_messages
      (_get_message_hash "alice" "duke") = none := by
    rw [if_neg (by decide)]
    rfl
  have hs : (track_request {} 0 "alice" "" "duke").2.seen_messages
      = [("alice:duke", (0 : ℚ))] := by
    rw [(track_request_new h0).2.1, if_neg (by decide)]
    rfl
  exact ⟨h.1, h.2.1 100 (by norm_num),
    h.2.2.1 4000 (by norm_num) (by rw [hs]; decide)⟩

/-- C10: when a call is classified as a duplicate (`isNew = false`), the
per-player stats, the recent-requests list and both session counters are
exactly as before, and the seen-cache is either untouched or has only
been TTL-cleaned (no entry added). -/
theorem claim_C10 (tr : TitleRequestTracker) (now : ℚ) (p tag t : String)
    (h : (track_request tr now p tag t).1.1 = false) :
    (track_request tr now p tag t).2.player_stats = tr.player_stats ∧
    (track_request tr now p tag t).2.recent_requests = tr.recent_requests ∧
    (track_request tr now p tag t).2.session_requests =
      tr.session_requests ∧
    (track_request tr now p tag t).2.session_grants = tr.session_grants ∧
    ((track_request tr now p tag t).2.seen_messages = tr.seen_messages ∨
     (track_request tr now p tag t).2.seen_messages =
       tr.seen_messages.filter
         (fun kv => now - tr.seen_messages_ttl < kv.2)) := by
  cases hd : dictGet (if 100 < tr.seen_messages.length then
      _cleanup_seen_messages tr now else tr).seen_messages
      (_get_message_hash p t) with
  | none =>
    rw [(track_request_new hd).1] at h
    cases h
  | some v =>
    rw [track_request_dup hd]
    by_cases hl : 100 < tr.seen_messages.length
    · rw [if_pos hl]
      exact ⟨rfl, rfl, rfl, rfl, Or.inr rfl⟩
    · rw [if_neg hl]
      exact ⟨rfl, rfl, rfl, rfl, Or.inl rfl⟩

/-- C10 witness: a concrete duplicate call (entry already seen at time 0,
repeat at time 100) leaves the whole tracker state unchanged. -/
theorem claim_C10_witness :
    (track_request { seen_messages := [("alice:duke", 0)] } 100
      "alice" "" "duke").1.1 = false ∧
    (track_request { seen_messages := [("alice:duke", 0)] } 100
      "alice" "" "duke").2.player_stats = [] := by
  have hdup : dictGet (if 100 <
      ({ seen_messages := [("alice:duke", 0)] } :
        TitleRequestTracker).seen_messages.length then
      _cleanup_seen_messages { seen_messages := [("alice:duke", 0)] } 100
      else { seen_messages := [("alice:duke", 0)] }).seen_messages
      (_get_message_hash "alice" "duke") = some 0 := by
    rw [if_neg (by decide)]
    rfl
  have hfalse : (track_request { seen_messages := [("alice:duke", 0)] }
      100 "alice" "" "duke").1.1 = false := by
    rw [track_request_dup hdup]
  exact ⟨hfalse, (claim_C10 _ 100 "alice" "" "duke" hfalse).1⟩

/-! ### C3: grant clears dedup, and the tracker's removal paths -/

/-- The tracker's public mutating operations (title_tracker.py). -/
inductive TrackerOp where
  | track (now : ℚ) (player alliance_tag title : String)
  | grant (now : ℚ) (player title : String)
  | clearPlayer (player : String) (title : Option String)
  | resetSeen

/-- Apply an operation to a tracker state. -/
def TrackerOp.apply : TrackerOp → TitleRequestTracker → TitleRequestTracker
  | .track now p tag t, tr => (track_request tr now p tag t).2
  | .grant now p t, tr => (record_grant tr now p t).2
  | .clearPlayer p t, tr => clear_player_from_seen tr p t
  | .resetSeen, tr => reset_seen_messages tr

/-- Whether the operation is `record_grant`. -/
def TrackerOp.isGrant : TrackerOp → Bool
  | .grant _ _ _ => true
  | _ => false

/-- The wall-clock time an operation runs at, when it has one. -/
def TrackerOp.time : TrackerOp → Option ℚ
  | .track now _ _ _ => some now
  | .grant now _ _ => some now
  | _ => none

/-- The operation removes a seen-cache entry early: an entry present
before the call is gone afterwards although it had not outlived the TTL
at the operation's time (an operation that carries no wall-clock time can
justify no TTL eviction at all). -/
def opRemovesEarly (op : TrackerOp) (tr : TitleRequestTracker) : Prop :=
  ∃ kv, kv ∈ tr.seen_messages ∧ kv ∉ (op.apply tr).seen_messages ∧
    ∀ now, op.time = some now → now - tr.seen_messages_ttl < kv.2

/-- C3 counterexample: `record_grant` is *not* the only path that removes
a seen-cache entry early — `clear_player_from_seen` deletes an unexpired
entry too (as does `reset_seen_messages`). -/
theorem claim_C3_counterexample :
    ¬ ∀ (op : TrackerOp) (tr : TitleRequestTracker),
        opRemovesEarly op tr → op.isGrant = true := by
  intro hall
  have h := hall (.clearPlayer "alice" (some "duke"))
    { seen_messages := [("alice:duke", 0)] }
    ⟨("alice:duke", 0), by decide, by decide,
      by intro now hnow; cases hnow⟩
  cases h

/-- C3 (amended): after a successful `record_grant(p, k)` the content
hash is cleared, so an immediate `track_request(p, t, k)` returns
`isNew = true`; and `track_request` itself never evicts an entry that is
still within the TTL (`record_grant` is the only early-removal path among
the request/grant pipeline, though `clear_player_from_seen` and
`reset_seen_messages` also remove entries). -/
theorem claim_C3 (tr : TitleRequestTracker) (now now' : ℚ)
    (p tag t : String)
    (hgrant : (record_grant tr now p t).1 = true) :
    (track_request (record_grant tr now p t).2 now' p tag t).1.1 = true ∧
    ∀ (tr2 : TitleRequestTracker) (now2 : ℚ) (p2 tag2 t2 : String)
      (kv : String × ℚ), kv ∈ tr2.seen_messages →
      now2 - tr2.seen_messages_ttl < kv.2 →
      kv ∈ (track_request tr2 now2 p2 tag2 t2).2.seen_messages := by
  constructor
  · cases hstats : statsGet tr.player_stats (_normalize_name p) with
    | none =>
      rw [record_grant_none hstats] at hgrant
      cases hgrant
    | some s =>
      obtain ⟨-, hseen⟩ :=
        @record_grant_some _ now _ t _ hstats
      have hg0 : dictGet (record_grant tr now p t).2.seen_messages
          (_get_message_hash p t) = none := by
        rw [hseen]
        exact dictGet_filter_ne_key _ _
      have h0 : dictGet (if 100 <
          (record_grant tr now p t).2.seen_messages.length then
          _cleanup_seen_messages (record_grant tr now p t).2 now'
          else (record_grant tr now p t).2).seen_messages
          (_get_message_hash p t) = none := by
        by_cases hl : 100 < (record_grant tr now p t).2.seen_messages.length
        · rw [if_pos hl, cleanup_seen]
          exact dictGet_filter_none _ hg0
        · rwa [if_neg hl]
      exact (track_request_new h0).1
  · intro tr2 now2 p2 tag2 t2 kv hmem hunexp
    have hmem1 : kv ∈ (if 100 < tr2.seen_messages.length then
        _cleanup_seen_messages tr2 now2 else tr2).seen_messages := by
      by_cases hl : 100 < tr2.seen_messages.length
      · rw [if_pos hl, cleanup_seen]
        exact List.mem_filter.mpr ⟨hmem, by simpa using hunexp⟩
      · rwa [if_neg hl]
    cases hd : dictGet (if 100 < tr2.seen_messages.length then
        _cleanup_seen_messages tr2 now2 else tr2).seen_messages
        (_get_message_hash p2 t2) with
    | some v =>
      rw [track_request_dup hd]
      exact hmem1
    | none =>
      rw [(track_request_new hd).2.1]
      exact List.mem_append_left _ hmem1

/-- Concrete tracker used by the C3 witness: the player is known to the
stats map and an unexpired seen-cache entry exists. -/
def grantTracker : TitleRequestTracker :=
  { player_stats :=
      [("alice", { player_name := "alice", alliance_tag := "" })],
    seen_messages := [("alice:duke", 0)] }

/-- C3 witness: granting `duke` to the known player clears the dedup
entry, the immediate re-request is accepted, and an unexpired entry of an
unrelated tracker survives a `track_request` call. -/
theorem claim_C3_witness :
    (record_grant grantTracker 50 "alice" "duke").1 = true ∧
    (track_request (record_grant grantTracker 50 "alice" "duke").2 60
      "alice" "" "duke").1.1 = true ∧
    ("bob:duke", (10 : ℚ)) ∈ (track_request
      { seen_messages := [("bob:duke", 10)] } 100 "x" ""
      "duke").2.seen_messages := by
  have hstats : statsGet grantTracker.player_stats
      (_normalize_name "alice") = some
      { player_name := "alice", alliance_tag := "" } := rfl
  have hgrant : (record_grant grantTracker 50 "alice" "duke").1 = true :=
    (@record_grant_some _ 50 _ "duke" _ hstats).1
  have h := claim_C3 grantTracker 50 60 "alice" "" "duke" hgrant
  exact ⟨hgrant, h.1,
    h.2 { seen_messages := [("bob:duke", 10)] } 100 "x" "" "duke"
      ("bob:duke", 10) (by simp) (by norm_num)⟩

/-! ## Escape guard (C2): `title_bot.safe_escape` versus the
`escape_sequence` recovery action of `game_state.py` -/

/-- A device action issued by the bot (adb key event, tap, or sleep;
sleeps are recorded in milliseconds). -/
inductive BotAction where
  | key (code : String)
  | tap (pos : ℕ × ℕ)
  | wait (ms : ℕ)
deriving Repr, DecidableEq

/-- Actions of `TitleBot.handle_exit_popup`: take a screenshot and, when
the exit-popup signature matches, tap `UI["exit_cancel"] = (665, 505)`.
`shot` is the screenshot oracle: `none` models a failed screenshot,
`some b` a frame on which `state_detector.is_exit_popup` returns `b`. -/
def handle_exit_popup_trace (shot : Option Bool) : List BotAction :=
  match shot with
  | some true => [.tap (665, 505)]
  | _ => []

/-- Actions of `TitleBot.safe_escape`: press escape, wait 0.3 s, then run
the exit-popup guard on a fresh screenshot. -/
def safe_escape_trace (shot : Option Bool) : List BotAction :=
  [.key "KEYCODE_ESCAPE", .wait 300] ++ handle_exit_popup_trace shot

/-- Actions of the `escape_sequence` recovery action registered for
`UNKNOWN` in `StateDetector.get_recovery_action`, as executed step by
step by `IntelligentRecovery._execute_action`: key escape, wait 0.3 s,
tap (800, 450), wait 0.3 s. No screenshot is taken and no popup
signature is re-checked, so the trace is frame-independent. -/
def escape_sequence_trace : List BotAction :=
  [.key "KEYCODE_ESCAPE", .wait 300, .tap (800, 450), .wait 300]

/-- The device actions of a trace (taps and key presses), waits skipped. -/
def deviceActions (l : List BotAction) : List BotAction :=
  l.filter (fun a => match a with | .wait _ => false | _ => true)

/-- The device action that immediately follows the first escape
keypress, if any. -/
def nextAfterEscape (l : List BotAction) : Option BotAction :=
  match (deviceActions l).dropWhile
      (fun a => a ≠ BotAction.key "KEYCODE_ESCAPE") with
  | _ :: a :: _ => some a
  | _ => none

/-- C2 counterexample: the classifier's `escape_sequence` recovery action
presses escape and then — without re-checking any signature — taps the
fixed point (800, 450), which is neither of the exit dialog's cancel
positions ((665, 505) in `title_bot.py`, (779, 457) in
`game_state.py`); since its trace consults no frame, the guard fails in
particular when the post-escape frame does match the exit signature. -/
theorem claim_C2_counterexample :
    nextAfterEscape escape_sequence_trace = some (.tap (800, 450)) ∧
    BotAction.tap (800, 450) ≠ .tap (665, 505) ∧
    BotAction.tap (800, 450) ≠ .tap (779, 457) := by decide

/-- C2 (amended): `safe_escape` does satisfy the guard — when the
post-escape frame matches the exit signature, the device action
immediately after the escape key is the dialog's cancel tap (665, 505) —
but the guard does not wrap every escape use: the classifier's
`escape_sequence` recovery action is frame-independent and
unconditionally taps (800, 450) after escape. -/
theorem claim_C2 :
    (∀ shot : Option Bool, shot = some true →
      nextAfterEscape (safe_escape_trace shot) = some (.tap (665, 505))) ∧
    (∀ shot : Option Bool, shot = some true →
      nextAfterEscape escape_sequence_trace = some (.tap (800, 450))) := by
  constructor
  · intro shot h
    subst h
    decide
  · intro shot h
    decide

/-- C2 witness: the guard of `safe_escape` at a matching post-escape
frame. -/
theorem claim_C2_witness :
    nextAfterEscape (safe_escape_trace (some true))
      = some (.tap (665, 505)) :=
  claim_C2.1 (some true) rfl

/-! ## Game states and the recovery loop (C9) -/

/-- The `GameState` enum of `game_state.py`. -/
inductive GameState where
  | IDLE_MAP | MAP_CITY_VIEW | MAP_SEARCHING
  | GOVERNOR_PROFILE | GOVERNOR_MORE_INFO | GOVERNOR_KILLS | OWN_PROFILE
  | RANKINGS_POWER | RANKINGS_KILLPOINTS | RANKINGS_ALLIANCE
  | RANKINGS_CITY_HALL
  | ALLIANCE_PANEL | ALLIANCE_MEMBERS | ALLIANCE_TERRITORY
  | BOTTOM_MENU | SETTINGS | MAIL | CHAT_EXPANDED | CHAT_COLLAPSED
  | EXIT_MENU | CONFIRMATION_POPUP | TITLE_POPUP | EVENT_POPUP
  | STORE_POPUP | REWARD_POPUP
  | CONNECTION_ERROR | LOADING_SCREEN | BLACK_SCREEN | FROZEN
  | UNKNOWN | TRANSITIONING
deriving Repr, DecidableEq

/-- One `while` iteration stream of `IntelligentRecovery.recover_to_idle`:
`oracle n` is the outcome of cycle `n` — `none` models a failed
screenshot (`except` + `continue`), `some st` the state returned by
`detect_state`. The recovery action execution and sleeps change no
modelled state. Returns the boolean result and the number of cycles
performed; the first component is the fuel left, the second the cycle
index. -/
def recoverLoop (oracle : ℕ → Option GameState) :
    ℕ → ℕ → Bool × ℕ
  | 0, n => (false, n)
  | fuel + 1, n =>
    match oracle n with
    | none => recoverLoop oracle fuel (n + 1)
    | some st =>
      if st = GameState.IDLE_MAP then (true, n + 1)
      else recoverLoop oracle fuel (n + 1)

/-- `IntelligentRecovery.recover_to_idle` with the attempt budget made a
parameter (`self.max_attempts`, 5 by default): run classify/act cycles
until the state is `IDLE_MAP` or the budget is exhausted. -/
def recover_to_idle (max_attempts : ℕ)
    (oracle : ℕ → Option GameState) : Bool × ℕ :=
  recoverLoop oracle max_attempts 0

/-- Generalized loop invariant for the recovery loop: the cycle count is
bounded by the remaining fuel, and the loop reports `false` exactly when
no in-budget cycle observed `IDLE_MAP`. -/
theorem recoverLoop_spec (oracle : ℕ → Option GameState) :
    ∀ (fuel start : ℕ),
      (recoverLoop oracle fuel start).2 ≤ start + fuel ∧
      ((recoverLoop oracle fuel start).1 = false ↔
        ∀ n, start ≤ n → n < start + fuel →
          oracle n ≠ some GameState.IDLE_MAP) := by
  intro fuel
  induction fuel with
  | zero =>
    intro start
    refine ⟨by simp [recoverLoop], ?_, ?_⟩
    · intro _ n h1 h2
      omega
    · intro _
      rfl
  | succ f ih =>
    intro start
    have h := ih (start + 1)
    rcases ho : oracle start with _ | st
    · have hr : recoverLoop oracle (f + 1) start
          = recoverLoop oracle f (start + 1) := by
        simp [recoverLoop, ho]
      rw [hr]
      refine ⟨by have := h.1; omega, ?_⟩
      rw [h.2]
      constructor
      · intro hall n h1 h2
        rcases Nat.eq_or_lt_of_le h1 with rfl | hlt
        · simp [ho]
        · exact hall n hlt (by omega)
      · intro hall n h1 h2
        exact hall n (by omega) (by omega)
    · by_cases hidle : st = GameState.IDLE_MAP
      · subst hidle
        have hr : recoverLoop oracle (f + 1) start = (true, start + 1) := by
          simp [recoverLoop, ho]
        rw [hr]
        refine ⟨by omega, ?_⟩
        constructor
        · intro hfalse
          cases hfalse
        · intro hall
          exact absurd ho (hall start (le_refl _) (by omega))
      · have hr : recoverLoop oracle (f + 1) start
            = recoverLoop oracle f (start + 1) := by
          simp [recoverLoop, ho, hidle]
        rw [hr]
        refine ⟨by have := h.1; omega, ?_⟩
        rw [h.2]
        constructor
        · intro hall n h1 h2
          rcases Nat.eq_or_lt_of_le h1 with rfl | hlt
          · simp [ho, hidle]
          · exact hall n hlt (by omega)
        · intro hall n h1 h2
          exact hall n (by omega) (by omega)

/-- C9: `recover_to_idle` with budget `N` performs at most `N`
classify/act cycles regardless of classifier output, and exhausting the
budget is the normal boolean result `false` (it returns `false` exactly
when no in-budget cycle observed `IDLE_MAP`). -/
theorem claim_C9 (N : ℕ) (oracle : ℕ → Option GameState) :
    (recover_to_idle N oracle).2 ≤ N ∧
    ((recover_to_idle N oracle).1 = false ↔
      ∀ n, n < N → oracle n ≠ some GameState.IDLE_MAP) := by
  have h := recoverLoop_spec oracle N 0
  refine ⟨by simpa [recover_to_idle] using h.1, ?_⟩
  rw [recover_to_idle, h.2]
  constructor
  · intro hall n h2
    exact hall n (Nat.zero_le _) (by omega)
  · intro hall n _ h2
    exact hall n (by omega)

/-! ## Title extraction (C5): `ChatParser.extract_title_type` -/

/-- Python substring test `needle in hay` on character lists. -/
def listHasSub (needle : List Char) : List Char → Bool
  | [] => needle.isEmpty
  | c :: rest => needle.isPrefixOf (c :: rest) || listHasSub needle rest

/-- Python `needle in hay` on strings. -/
def pyIn (needle hay : String) : Bool :=
  listHasSub needle.data hay.data

/-- `ChatParser.extract_title_type` (vision_system.py): fixed-priority
keyword scan over the lowercased message, with `"scientist"` as the final
fallback. -/
def extract_title_type (message : String) : String :=
  let msg_lower := pyLower message
  if pyIn "justice" msg_lower || pyIn "jus" msg_lower then "justice"
  else if pyIn "duke" msg_lower || pyIn "duk" msg_lower then "duke"
  else if pyIn "architect" msg_lower || pyIn "arch" msg_lower then
    "architect"
  else if pyIn "scientist" msg_lower || pyIn "sci" msg_lower then
    "scientist"
  else "scientist"

/-- Whether the message contains any title keyword or abbreviation that
`extract_title_type` looks for. -/
def hasTitleKeyword (m : String) : Bool :=
  let l := pyLower m
  pyIn "justice" l || pyIn "jus" l || pyIn "duke" l || pyIn "duk" l ||
  pyIn "architect" l || pyIn "arch" l || pyIn "scientist" l ||
  pyIn "sci" l

/-- C5 counterexample: a message containing no title keyword at all
("hello") silently gets the default `"scientist"` — the fallback is not
reserved for ambiguous multi-keyword messages. -/
theorem claim_C5_counterexample :
    hasTitleKeyword "hello" = false ∧
    extract_title_type "hello" = "scientist" := by decide

/-- C5 (amended): `extract_title_type` returns the default `"scientist"`
for every message with no title keyword or abbreviation (a silent
default), while messages with several keyword candidates are resolved by
the fixed priority justice > duke > architect > scientist — never by the
fallback. -/
theorem claim_C5 (m : String) :
    (hasTitleKeyword m = false → extract_title_type m = "scientist") ∧
    ((pyIn "justice" (pyLower m) || pyIn "jus" (pyLower m)) = true →
      extract_title_type m = "justice") ∧
    ((pyIn "justice" (pyLower m) || pyIn "jus" (pyLower m)) = false →
      (pyIn "duke" (pyLower m) || pyIn "duk" (pyLower m)) = true →
      extract_title_type m = "duke") ∧
    ((pyIn "justice" (pyLower m) || pyIn "jus" (pyLower m)) = false →
      (pyIn "duke" (pyLower m) || pyIn "duk" (pyLower m)) = false →
      (pyIn "architect" (pyLower m) || pyIn "arch" (pyLower m)) = true →
      extract_title_type m = "architect") := by
  refine ⟨?_, ?_, ?_, ?_⟩
  · intro h
    simp only [hasTitleKeyword, Bool.or_eq_false_iff] at h
    obtain ⟨⟨⟨⟨⟨⟨⟨h1, h2⟩, h3⟩, h4⟩, h5⟩, h6⟩, h7⟩, h8⟩ := h
    simp [extract_title_type, h1, h2, h3, h4, h5, h6, h7, h8]
  · intro h
    simp [extract_title_type, h]
  · intro h1 h2
    simp [extract_title_type, h1, h2]
  · intro h1 h2 h3
    simp [extract_title_type, h1, h2, h3]

/-- C5 witness: the amended behaviour at concrete messages — a
keyword-free message gets the default, and an ambiguous two-keyword
message resolves by priority to `"justice"`. -/
theorem claim_C5_witness :
    extract_title_type "hello" = "scientist" ∧
    extract_title_type "justice or duke please" = "justice" :=
  ⟨(claim_C5 "hello").1 (by decide),
   (claim_C5 "justice or duke please").2.1 (by decide)⟩

/-! ## Pixel model for `StateDetector` (game_state.py)

A frame is a function from (row, column) to a BGR pixel; pixel values,
float means and variances are rationals (floats-as-rationals
convention); `np.std` takes a real square root. `np.mean`/`np.var` of an
empty region are `none`, modelling the NaN that numpy produces (every
comparison against NaN is false). The template cache is empty — the
repository ships none of the template PNG files `_load_templates` looks
for — so `_is_exit_menu` runs on its colour and structure checks alone.
`cv2.cvtColor` raises on an empty input array; in `detect_state` this is
an uncaught exception for `_is_loading` and `_is_rankings_screen`
(modelled by the `Except` error channel), while `_is_exit_menu` catches
it and returns `False` (with an empty centre region its brightness check
is false anyway, which the NaN model already yields). -/

/-- A BGR pixel. -/
def Pix : Type := ℚ × ℚ × ℚ

/-- A frame: row and column index to pixel. The frame dimensions are
passed separately where they matter. -/
def Frame : Type := ℕ → ℕ → Pix

/-- Blue channel. -/
def bCh (f : Frame) (i j : ℕ) : ℚ := (f i j).1

/-- Green channel. -/
def gCh (f : Frame) (i j : ℕ) : ℚ := (f i j).2.1

/-- Red channel. -/
def rCh (f : Frame) (i j : ℕ) : ℚ := (f i j).2.2

/-- `cv2.cvtColor(..., COLOR_BGR2GRAY)` pixel value
(0.299 R + 0.587 G + 0.114 B; the uint8 rounding is not modelled, per
the floats-as-rationals convention). -/
def grayAt (f : Frame) (i j : ℕ) : ℚ :=
  (299 * rCh f i j + 587 * gCh f i j + 114 * bCh f i j) / 1000

/-- Sum of a scalar field over the half-open pixel rectangle
`[r1, r2) × [c1, c2)`. -/
def rsum (g : ℕ → ℕ → ℚ) (r1 r2 c1 c2 : ℕ) : ℚ :=
  ∑ i in Finset.Ico r1 r2, ∑ j in Finset.Ico c1 c2, g i j

/-- Number of pixels of the rectangle. -/
def rcount (r1 r2 c1 c2 : ℕ) : ℕ := (r2 - r1) * (c2 - c1)

/-- `np.mean` of a scalar field over a rectangle (`none` = NaN of an
empty mean). -/
def npMean (g : ℕ → ℕ → ℚ) (r1 r2 c1 c2 : ℕ) : Option ℚ :=
  if r1 < r2 ∧ c1 < c2 then
    some (rsum g r1 r2 c1 c2 / (rcount r1 r2 c1 c2 : ℚ))
  else none

/-- `np.var` (population variance) of a scalar field over a rectangle. -/
def npVar (g : ℕ → ℕ → ℚ) (r1 r2 c1 c2 : ℕ) : Option ℚ :=
  if r1 < r2 ∧ c1 < c2 then
    some (rsum (fun i j => g i j ^ 2) r1 r2 c1 c2 /
        (rcount r1 r2 c1 c2 : ℚ) -
      (rsum g r1 r2 c1 c2 / (rcount r1 r2 c1 c2 : ℚ)) ^ 2)
  else none

/-- `np.std` of a scalar field over a rectangle, as a real number. -/
noncomputable def npStd (g : ℕ → ℕ → ℚ) (r1 r2 c1 c2 : ℕ) : Option ℝ :=
  (npVar g r1 r2 c1 c2).map (fun v => Real.sqrt (v : ℝ))

/-- `np.mean` of a whole BGR region (mean over all `h×w×3` values). -/
def npMean3 (f : Frame) (r1 r2 c1 c2 : ℕ) : Option ℚ :=
  if r1 < r2 ∧ c1 < c2 then
    some ((rsum (bCh f) r1 r2 c1 c2 + rsum (gCh f) r1 r2 c1 c2 +
        rsum (rCh f) r1 r2 c1 c2) / (3 * rcount r1 r2 c1 c2 : ℚ))
  else none

/-- `np.std` of a whole BGR region (std over all `h×w×3` values). -/
noncomputable def npStd3 (f : Frame) (r1 r2 c1 c2 : ℕ) : Option ℝ :=
  if r1 < r2 ∧ c1 < c2 then
    some (Real.sqrt (((rsum (fun i j => bCh f i j ^ 2) r1 r2 c1 c2 +
        rsum (fun i j => gCh f i j ^ 2) r1 r2 c1 c2 +
        rsum (fun i j => rCh f i j ^ 2) r1 r2 c1 c2) /
        (3 * rcount r1 r2 c1 c2 : ℚ) -
      ((rsum (bCh f) r1 r2 c1 c2 + rsum (gCh f) r1 r2 c1 c2 +
        rsum (rCh f) r1 r2 c1 c2) / (3 * rcount r1 r2 c1 c2 : ℚ)) ^ 2 : ℚ)))
  else none

/-- NaN-aware `mean < b` (false when the mean is NaN). -/
def oLt (a : Option ℚ) (b : ℚ) : Bool :=
  match a with
  | some x => decide (x < b)
  | none => false

/-- NaN-aware `mean > b`. -/
def oGt (a : Option ℚ) (b : ℚ) : Bool :=
  match a with
  | some x => decide (b < x)
  | none => false

/-- NaN-aware comparison of two optional means (`a < b`). -/
def oLt2 (a b : Option ℚ) : Bool :=
  match a, b with
  | some x, some y => decide (x < y)
  | _, _ => false

/-- NaN-aware comparison of two optional means (`a > b`). -/
def oGt2 (a b : Option ℚ) : Bool :=
  match a, b with
  | some x, some y => decide (y < x)
  | _, _ => false

/-- NaN-aware real comparison `std < b`. -/
def oLtR (a : Option ℝ) (b : ℝ) : Prop :=
  match a with
  | some x => x < b
  | none => False

/-- NaN-aware real comparison `std > b`. -/
def oGtR (a : Option ℝ) (b : ℝ) : Prop :=
  match a with
  | some x => b < x
  | none => False

/-- Python/numpy slice index resolution: negative indices count from the
end, and the result is clamped to `[0, n]`. -/
def npIdx (n : ℕ) (i : ℤ) : ℕ :=
  (max 0 (min (if i < 0 then (n : ℤ) + i else i) (n : ℤ))).toNat

/-- `StateDetector._is_black_screen`: whole-frame mean brightness
below 15. -/
def _is_black_screen (h w : ℕ) (f : Frame) : Prop :=
  oLt (npMean3 f 0 h 0 w) 15 = true

/-- The centre region sliced by `_is_loading`
(`screen[h//2-50 : h//2+50, w//2-50 : w//2+50]`). -/
def loadingRegion (h w : ℕ) : ℕ × ℕ × ℕ × ℕ :=
  (npIdx h ((h / 2 : ℤ) - 50), npIdx h ((h / 2 : ℤ) + 50),
   npIdx w ((w / 2 : ℤ) - 50), npIdx w ((w / 2 : ℤ) + 50))

/-- Whether the `_is_loading` centre region is empty (then
`cv2.cvtColor` raises, uncaught). -/
def loadingRegionEmpty (h w : ℕ) : Prop :=
  ¬ ((loadingRegion h w).1 < (loadingRegion h w).2.1 ∧
     (loadingRegion h w).2.2.1 < (loadingRegion h w).2.2.2)

/-- `StateDetector._is_loading` on a non-empty centre region: high
grayscale variance (animated element) and bright centre. -/
def _is_loading (h w : ℕ) (f : Frame) : Prop :=
  oGt (npVar (grayAt f)
      (loadingRegion h w).1 (loadingRegion h w).2.1
      (loadingRegion h w).2.2.1 (loadingRegion h w).2.2.2) 2000 = true ∧
  oGt (npMean3 f
      (loadingRegion h w).1 (loadingRegion h w).2.1
      (loadingRegion h w).2.2.1 (loadingRegion h w).2.2.2) 100 = true

/-- `StateDetector._is_connection_error`: dark overlay, with a centre
popup brighter than the overlay by 30 and by a factor 1.5. -/
def _is_connection_error (h w : ℕ) (f : Frame) : Prop :=
  ¬ oGt (npMean3 f 0 h 0 w) 100 = true ∧
  ¬ oLt2 (npMean3 f (h / 3) (2 * h / 3) (w / 4) (3 * w / 4))
      ((npMean3 f 0 h 0 w).map (· + 30)) = true ∧
  oGt2 (npMean3 f (h / 3) (2 * h / 3) (w / 4) (3 * w / 4))
      ((npMean3 f 0 h 0 w).map (· * (3 / 2))) = true

/-- `StateDetector._is_exit_menu` (template cache empty, so only the
colour and structure checks apply; the `try/except` that swallows the
empty-region `cv2.cvtColor` error coincides with the NaN semantics of
the empty mean, both yielding `False`). -/
def _is_exit_menu (h w : ℕ) (f : Frame) : Prop :=
  -- NOTICE header colour in screen[200:280, 550:750]
  (oGt (npMean (bCh f) (min 200 h) (min 280 h) (min 550 w) (min 750 w))
      60 = true ∧
   oLt (npMean (bCh f) (min 200 h) (min 280 h) (min 550 w) (min 750 w))
      120 = true ∧
   oGt (npMean (gCh f) (min 200 h) (min 280 h) (min 550 w) (min 750 w))
      130 = true ∧
   oLt (npMean (gCh f) (min 200 h) (min 280 h) (min 550 w) (min 750 w))
      200 = true ∧
   oGt (npMean (rCh f) (min 200 h) (min 280 h) (min 550 w) (min 750 w))
      110 = true ∧
   oLt (npMean (rCh f) (min 200 h) (min 280 h) (min 550 w) (min 750 w))
      180 = true) ∧
  -- CANCEL button colour in screen[430:490, 700:860]
  (oGt (npMean (bCh f) (min 430 h) (min 490 h) (min 700 w) (min 860 w))
      80 = true ∧
   oLt (npMean (bCh f) (min 430 h) (min 490 h) (min 700 w) (min 860 w))
      150 = true ∧
   oGt (npMean (gCh f) (min 430 h) (min 490 h) (min 700 w) (min 860 w))
      150 = true ∧
   oLt (npMean (gCh f) (min 430 h) (min 490 h) (min 700 w) (min 860 w))
      220 = true ∧
   oGt (npMean (rCh f) (min 430 h) (min 490 h) (min 700 w) (min 860 w))
      150 = true ∧
   oLt (npMean (rCh f) (min 430 h) (min 490 h) (min 700 w) (min 860 w))
      220 = true) ∧
  -- popup structure: bright, uniform grayscale centre screen[200:500, 450:850]
  (oGt (npMean (grayAt f) (min 200 h) (min 500 h) (min 450 w) (min 850 w))
      120 = true ∧
   oLtR (npStd (grayAt f) (min 200 h) (min 500 h) (min 450 w) (min 850 w))
      60)

/-- `StateDetector._is_governor_profile`: bright close-button area
(early `return False` when its mean is below 145 — false for NaN, so the
check falls through on an unreadable region exactly as in numpy), plus a
structured right panel. -/
def _is_governor_profile (h w : ℕ) (f : Frame) : Prop :=
  ¬ oLt (npMean3 f (min 60 h) (min 100 h) (min 1020 w) (min 1070 w))
      145 = true ∧
  oGt (npMean3 f (min 100 h) (min 400 h) (min 800 w) (min 1100 w))
      100 = true ∧
  oGtR (npStd3 f (min 100 h) (min 400 h) (min 800 w) (min 1100 w)) 30

/-- OpenCV BGR→HSV for one pixel (H on the halved 0–180 scale used for
8-bit images). -/
def pixHSV (p : Pix) : ℚ × ℚ × ℚ :=
  let b := p.1
  let g := p.2.1
  let r := p.2.2
  let v := max r (max g b)
  let mn := min r (min g b)
  let s : ℚ := if v = 0 then 0 else 255 * (v - mn) / v
  let hfull : ℚ :=
    if v = mn then 0
    else if v = r then 60 * (g - b) / (v - mn)
    else if v = g then 120 + 60 * (b - r) / (v - mn)
    else 240 + 60 * (r - g) / (v - mn)
  let hfull := if hfull < 0 then hfull + 360 else hfull
  (hfull / 2, s, v)

/-- `cv2.inRange(hsv, [15,100,100], [35,255,255])` for one pixel. -/
def isGoldPix (p : Pix) : Bool :=
  decide (15 ≤ (pixHSV p).1) && decide ((pixHSV p).1 ≤ 35) &&
  decide (100 ≤ (pixHSV p).2.1) && decide ((pixHSV p).2.1 ≤ 255) &&
  decide (100 ≤ (pixHSV p).2.2) && decide ((pixHSV p).2.2 ≤ 255)

/-- `np.count_nonzero(mask)` for the gold mask over a rectangle. -/
def goldCount (f : Frame) (r1 r2 c1 c2 : ℕ) : ℕ :=
  (((Finset.Ico r1 r2) ×ˢ (Finset.Ico c1 c2)).filter
    (fun ij => isGoldPix (f ij.1 ij.2) = true)).card

/-- Whether either region of `_is_rankings_screen` is empty (then one of
its `cv2.cvtColor` calls raises, uncaught). -/
def rankingsRegionEmpty (h w : ℕ) : Prop :=
  ¬ (min 50 h < min 150 h ∧ min 100 w < min 500 w ∧
     min 250 h < min 600 h ∧ min 300 w < min 1300 w)

/-- `StateDetector._is_rankings_screen`: enough gold in the header
region `screen[50:150, 100:500]` and a structured list region
`screen[250:600, 300:1300]`. -/
def _is_rankings_screen (h w : ℕ) (f : Frame) : Prop :=
  (goldCount f (min 50 h) (min 150 h) (min 100 w) (min 500 w) : ℚ) /
      (rcount (min 50 h) (min 150 h) (min 100 w) (min 500 w) : ℚ)
      > 3 / 100 ∧
  oGtR (npStd (grayAt f) (min 250 h) (min 600 h) (min 300 w)
      (min 1300 w)) 40

/-- `StateDetector._detect_ranking_type`: the brighter of the two tab
regions wins; ties and NaN keep the `RANKINGS_POWER` default. -/
def _detect_ranking_type (h w : ℕ) (f : Frame) : GameState :=
  let mp := npMean3 f (min 140 h) (min 180 h) (min 300 w) (min 400 w)
  let mk := npMean3 f (min 140 h) (min 180 h) (min 450 w) (min 550 w)
  let max1 : ℚ := match mp with
    | some x => if 0 < x then x else 0
    | none => 0
  match mk with
  | some y =>
    if max1 < y then GameState.RANKINGS_KILLPOINTS
    else GameState.RANKINGS_POWER
  | none => GameState.RANKINGS_POWER

/-- `StateDetector._is_on_map`: bottom menu bar `screen[830:900, :]`
with medium brightness and high per-channel colour spread (the
`has_green` value computed by the source is never used in its return
expression and is omitted). -/
def _is_on_map (h w : ℕ) (f : Frame) : Prop :=
  oGt (npMean3 f (min 830 h) (min 900 h) 0 w) 40 = true ∧
  oLt (npMean3 f (min 830 h) (min 900 h) 0 w) 160 = true ∧
  (match npStd (bCh f) (min 830 h) (min 900 h) 0 w,
      npStd (gCh f) (min 830 h) (min 900 h) 0 w,
      npStd (rCh f) (min 830 h) (min 900 h) 0 w with
   | some sb, some sg, some sr => (80 : ℝ) < sb + sg + sr
   | _, _, _ => False)

/-- `StateDetector._is_chat_expanded`: the chat region
`screen[100:500, 50:400]` has all three channel means above 40. -/
def _is_chat_expanded (h w : ℕ) (f : Frame) : Prop :=
  oGt (npMean (bCh f) (min 100 h) (min 500 h) (min 50 w) (min 400 w))
    40 = true ∧
  oGt (npMean (gCh f) (min 100 h) (min 500 h) (min 50 w) (min 400 w))
    40 = true ∧
  oGt (npMean (rCh f) (min 100 h) (min 500 h) (min 50 w) (min 400 w))
    40 = true

/-- Dataclass `StateDetectionResult` (details values stringified). -/
structure StateDetectionResult where
  state : GameState
  confidence : ℚ
  details : List (String × String)
  suggested_action : Option String := none
  recovery_steps : Option (List String) := none
deriving Repr, DecidableEq

/-- The `.name` of a `GameState` member. -/
def gsName : GameState → String
  | .IDLE_MAP => "IDLE_MAP"
  | .MAP_CITY_VIEW => "MAP_CITY_VIEW"
  | .MAP_SEARCHING => "MAP_SEARCHING"
  | .GOVERNOR_PROFILE => "GOVERNOR_PROFILE"
  | .GOVERNOR_MORE_INFO => "GOVERNOR_MORE_INFO"
  | .GOVERNOR_KILLS => "GOVERNOR_KILLS"
  | .OWN_PROFILE => "OWN_PROFILE"
  | .RANKINGS_POWER => "RANKINGS_POWER"
  | .RANKINGS_KILLPOINTS => "RANKINGS_KILLPOINTS"
  | .RANKINGS_ALLIANCE => "RANKINGS_ALLIANCE"
  | .RANKINGS_CITY_HALL => "RANKINGS_CITY_HALL"
  | .ALLIANCE_PANEL => "ALLIANCE_PANEL"
  | .ALLIANCE_MEMBERS => "ALLIANCE_MEMBERS"
  | .ALLIANCE_TERRITORY => "ALLIANCE_TERRITORY"
  | .BOTTOM_MENU => "BOTTOM_MENU"
  | .SETTINGS => "SETTINGS"
  | .MAIL => "MAIL"
  | .CHAT_EXPANDED => "CHAT_EXPANDED"
  | .CHAT_COLLAPSED => "CHAT_COLLAPSED"
  | .EXIT_MENU => "EXIT_MENU"
  | .CONFIRMATION_POPUP => "CONFIRMATION_POPUP"
  | .TITLE_POPUP => "TITLE_POPUP"
  | .EVENT_POPUP => "EVENT_POPUP"
  | .STORE_POPUP => "STORE_POPUP"
  | .REWARD_POPUP => "REWARD_POPUP"
  | .CONNECTION_ERROR => "CONNECTION_ERROR"
  | .LOADING_SCREEN => "LOADING_SCREEN"
  | .BLACK_SCREEN => "BLACK_SCREEN"
  | .FROZEN => "FROZEN"
  | .UNKNOWN => "UNKNOWN"
  | .TRANSITIONING => "TRANSITIONING"

/-- Result returned for a black screen. -/
def blackResult : StateDetectionResult :=
  { state := .BLACK_SCREEN, confidence := 95 / 100,
    details := [("reason", "Screen is mostly black")],
    suggested_action := some "wait_or_restart",
    recovery_steps := some ["Wait 5 seconds",
      "If still black, restart game"] }

/-- Result returned for a loading screen. -/
def loadingResult : StateDetectionResult :=
  { state := .LOADING_SCREEN, confidence := 85 / 100,
    details := [("reason", "Loading indicator detected")],
    suggested_action := some "wait",
    recovery_steps := some ["Wait for loading to complete"] }

/-- Result returned for a connection-error popup. -/
def connectionResult : StateDetectionResult :=
  { state := .CONNECTION_ERROR, confidence := 90 / 100,
    details := [("reason", "Connection error popup detected")],
    suggested_action := some "click_ok",
    recovery_steps := some ["Click OK/Retry button", "Wait and retry"] }

/-- Result returned for the exit menu. -/
def exitResult : StateDetectionResult :=
  { state := .EXIT_MENU, confidence := 95 / 100,
    details := [("reason", "Exit menu detected")],
    suggested_action := some "click_cancel",
    recovery_steps := some ["Click CANCEL button at (779, 457)"] }

/-- Result returned for a governor profile. -/
def governorResult : StateDetectionResult :=
  { state := .GOVERNOR_PROFILE, confidence := 85 / 100,
    details := [("reason", "Governor profile detected")],
    suggested_action := some "read_stats_or_close" }

/-- Result returned for a rankings screen. -/
def rankingsResult (h w : ℕ) (f : Frame) : StateDetectionResult :=
  { state := _detect_ranking_type h w f, confidence := 85 / 100,
    details := [("ranking_type", gsName (_detect_ranking_type h w f))],
    suggested_action := some "continue_scan" }

open Classical in
/-- Result returned for the idle map. -/
noncomputable def idleResult (h w : ℕ) (f : Frame) : StateDetectionResult :=
  { state := .IDLE_MAP, confidence := 80 / 100,
    details := [("chat_state",
      gsName (if _is_chat_expanded h w f then .CHAT_EXPANDED
        else .CHAT_COLLAPSED)),
      ("bottom_menu_visible", "True")],
    suggested_action := some "ready_for_commands" }

/-- Default result for an unrecognized frame. -/
def unknownResult : StateDetectionResult :=
  { state := .UNKNOWN, confidence := 3 / 10,
    details := [("reason", "Could not determine state")],
    suggested_action := some "try_recovery",
    recovery_steps := some ["Press ESC to close popups",
      "Click on empty map areas", "If stuck, restart navigation"] }

open Classical in
/-- `StateDetector.detect_state`: the prioritized check chain, with the
uncaught empty-region `cv2.cvtColor` exceptions made explicit in the
`Except` error channel. -/
noncomputable def detect_state (h w : ℕ) (f : Frame) :
    Except String StateDetectionResult :=
  if _is_black_screen h w f then .ok blackResult
  else if loadingRegionEmpty h w then
    .error "cv2.cvtColor: empty input in _is_loading"
  else if _is_loading h w f then .ok loadingResult
  else if _is_connection_error h w f then .ok connectionResult
  else if _is_exit_menu h w f then .ok exitResult
  else if _is_governor_profile h w f then .ok governorResult
  else if rankingsRegionEmpty h w then
    .error "cv2.cvtColor: empty input in _is_rankings_screen"
  else if _is_rankings_screen h w f then .ok (rankingsResult h w f)
  else if _is_on_map h w f then .ok (idleResult h w f)
  else .ok unknownResult

/-! ### Rectangle-sum toolkit for evaluating the pixel statistics of
concrete frames -/

theorem rsum_split_rows (g : ℕ → ℕ → ℚ) {a b : ℕ} (m c1 c2 : ℕ)
    (h1 : a ≤ m) (h2 : m ≤ b) :
    rsum g a b c1 c2 = rsum g a m c1 c2 + rsum g m b c1 c2 := by
  unfold rsum
  rw [← Finset.sum_Ico_consecutive _ h1 h2]

theorem rsum_split_cols (g : ℕ → ℕ → ℚ) (r1 r2 : ℕ) {a b : ℕ} (m : ℕ)
    (h1 : a ≤ m) (h2 : m ≤ b) :
    rsum g r1 r2 a b = rsum g r1 r2 a m + rsum g r1 r2 m b := by
  unfold rsum
  rw [← Finset.sum_add_distrib]
  refine Finset.sum_congr rfl (fun i _ => ?_)
  rw [← Finset.sum_Ico_consecutive _ h1 h2]

theorem rsum_const {g : ℕ → ℕ → ℚ} {r1 r2 c1 c2 : ℕ} {v : ℚ}
    (h : ∀ i j, r1 ≤ i → i < r2 → c1 ≤ j → j < c2 → g i j = v) :
    rsum g r1 r2 c1 c2 = ((r2 - r1) * (c2 - c1) : ℕ) * v := by
  unfold rsum
  have hrows : ∀ i ∈ Finset.Ico r1 r2,
      ∑ j in Finset.Ico c1 c2, g i j = ((c2 - c1 : ℕ) : ℚ) * v := by
    intro i hi
    rw [Finset.mem_Ico] at hi
    have hcols : ∀ j ∈ Finset.Ico c1 c2, g i j = v := by
      intro j hj
      rw [Finset.mem_Ico] at hj
      exact h i j hi.1 hi.2 hj.1 hj.2
    rw [Finset.sum_congr rfl hcols, Finset.sum_const, Nat.card_Ico,
      nsmul_eq_mul]
  rw [Finset.sum_congr rfl hrows, Finset.sum_const, Nat.card_Ico,
    nsmul_eq_mul]
  push_cast
  ring

theorem rsum_congr {g1 g2 : ℕ → ℕ → ℚ} {r1 r2 c1 c2 : ℕ}
    (h : ∀ i j, r1 ≤ i → i < r2 → c1 ≤ j → j < c2 → g1 i j = g2 i j) :
    rsum g1 r1 r2 c1 c2 = rsum g2 r1 r2 c1 c2 := by
  unfold rsum
  refine Finset.sum_congr rfl (fun i hi => ?_)
  refine Finset.sum_congr rfl (fun j hj => ?_)
  rw [Finset.mem_Ico] at hi hj
  exact h i j hi.1 hi.2 hj.1 hj.2

/-! ### Concrete frames for the C4 and C6 claims -/

/-- The all-black frame. -/
def fZero : Frame := fun _ _ => ((0 : ℚ), (0 : ℚ), (0 : ℚ))

/-- A synthetic frame that simultaneously satisfies the black-screen,
exit-menu and idle-map signatures: a dark canvas with one popup-coloured
rectangle over the exit-dialog area and a half-dark bottom menu band. -/
def fCE : Frame := fun i j =>
  if 830 ≤ i ∧ i < 900 then
    (if j < 800 then ((0 : ℚ), (0 : ℚ), (0 : ℚ))
     else ((82 : ℚ), (82 : ℚ), (82 : ℚ)))
  else if 200 ≤ i ∧ i < 500 ∧ 450 ≤ j ∧ j < 850 then
    ((90 : ℚ), (165 : ℚ), (165 : ℚ))
  else ((0 : ℚ), (0 : ℚ), (0 : ℚ))

theorem fCE_center_val {i j : ℕ} (h1 : 200 ≤ i) (h2 : i < 500)
    (h3 : 450 ≤ j) (h4 : j < 850) :
    fCE i j = ((90 : ℚ), (165 : ℚ), (165 : ℚ)) := by
  unfold fCE
  rw [if_neg (by omega), if_pos ⟨h1, h2, h3, h4⟩]

theorem fCE_bl_val {i j : ℕ} (h1 : 830 ≤ i) (h2 : i < 900)
    (h3 : j < 800) : fCE i j = ((0 : ℚ), (0 : ℚ), (0 : ℚ)) := by
  unfold fCE
  rw [if_pos ⟨h1, h2⟩, if_pos h3]

theorem fCE_br_val {i j : ℕ} (h1 : 830 ≤ i) (h2 : i < 900)
    (h3 : 800 ≤ j) : fCE i j = ((82 : ℚ), (82 : ℚ), (82 : ℚ)) := by
  unfold fCE
  rw [if_pos ⟨h1, h2⟩, if_neg (by omega)]

theorem fCE_base_val {i j : ℕ} (h1 : ¬ (830 ≤ i ∧ i < 900))
    (h2 : ¬ (200 ≤ i ∧ i < 500 ∧ 450 ≤ j ∧ j < 850)) :
    fCE i j = ((0 : ℚ), (0 : ℚ), (0 : ℚ)) := by
  unfold fCE
  rw [if_neg h1, if_neg h2]

theorem fCE_g_eq_r (i j : ℕ) : gCh fCE i j = rCh fCE i j := by
  unfold gCh rCh fCE
  split
  · split <;> rfl
  · split <;> rfl

/-! ### Pixel statistics of `fCE` -/

theorem fCE_b_total : rsum (bCh fCE) 0 900 0 1600 = 15392000 := by
  have h1 : rsum (bCh fCE) 0 200 0 1600 = ((200 - 0) * (1600 - 0) : ℕ) * 0 :=
    rsum_const (fun i j hi1 hi2 hj1 hj2 => by
      have hv := fCE_base_val (i := i) (j := j) (by omega) (by omega)
      simp [bCh, hv])
  have h2 : rsum (bCh fCE) 200 500 0 450 = ((500 - 200) * (450 - 0) : ℕ) * 0 :=
    rsum_const (fun i j hi1 hi2 hj1 hj2 => by
      have hv := fCE_base_val (i := i) (j := j) (by omega) (by omega)
      simp [bCh, hv])
  have h3 : rsum (bCh fCE) 200 500 450 850
      = ((500 - 200) * (850 - 450) : ℕ) * 90 :=
    rsum_const (fun i j hi1 hi2 hj1 hj2 => by
      simp [bCh, fCE_center_val hi1 hi2 hj1 hj2])
  have h4 : rsum (bCh fCE) 200 500 850 1600
      = ((500 - 200) * (1600 - 850) : ℕ) * 0 :=
    rsum_const (fun i j hi1 hi2 hj1 hj2 => by
      have hv := fCE_base_val (i := i) (j := j) (by omega) (by omega)
      simp [bCh, hv])
  have h5 : rsum (bCh fCE) 500 830 0 1600
      = ((830 - 500) * (1600 - 0) : ℕ) * 0 :=
    rsum_const (fun i j hi1 hi2 hj1 hj2 => by
      have hv := fCE_base_val (i := i) (j := j) (by omega) (by omega)
      simp [bCh, hv])
  have h6 : rsum (bCh fCE) 830 900 0 800 = ((900 - 830) * (800 - 0) : ℕ) * 0 :=
    rsum_const (fun i j hi1 hi2 hj1 hj2 => by
      simp [bCh, fCE_bl_val hi1 hi2 hj2])
  have h7 : rsum (bCh fCE) 830 900 800 1600
      = ((900 - 830) * (1600 - 800) : ℕ) * 82 :=
    rsum_const (fun i j hi1 hi2 hj1 hj2 => by
      simp [bCh, fCE_br_val hi1 hi2 hj1])
  rw [rsum_split_rows (bCh fCE) 200 0 1600 (by norm_num) (by norm_num),
    rsum_split_rows (a := 200) (b := 900) (bCh fCE) 500 0 1600
      (by norm_num) (by norm_num),
    rsum_split_rows (a := 500) (b := 900) (bCh fCE) 830 0 1600
      (by norm_num) (by norm_num),
    rsum_split_cols (bCh fCE) 200 500 (a := 0) (b := 1600) 450
      (by norm_num) (by norm_num),
    rsum_split_cols (bCh fCE) 200 500 (a := 450) (b := 1600) 850
      (by norm_num) (by norm_num),
    rsum_split_cols (bCh fCE) 830 900 (a := 0) (b := 1600) 800
      (by norm_num) (by norm_num),
    h1, h2, h3, h4, h5, h6, h7]
  norm_num

theorem fCE_g_total : rsum (gCh fCE) 0 900 0 1600 = 24392000 := by
  have h1 : rsum (gCh fCE) 0 200 0 1600 = ((200 - 0) * (1600 - 0) : ℕ) * 0 :=
    rsum_const (fun i j hi1 hi2 hj1 hj2 => by
      have hv := fCE_base_val (i := i) (j := j) (by omega) (by omega)
      simp [gCh, hv])
  have h2 : rsum (gCh fCE) 200 500 0 450 = ((500 - 200) * (450 - 0) : ℕ) * 0 :=
    rsum_const (fun i j hi1 hi2 hj1 hj2 => by
      have hv := fCE_base_val (i := i) (j := j) (by omega) (by omega)
      simp [gCh, hv])
  have h3 : rsum (gCh fCE) 200 500 450 850
      = ((500 - 200) * (850 - 450) : ℕ) * 165 :=
    rsum_const (fun i j hi1 hi2 hj1 hj2 => by
      simp [gCh, fCE_center_val hi1 hi2 hj1 hj2])
  have h4 : rsum (gCh fCE) 200 500 850 1600
      = ((500 - 200) * (1600 - 850) : ℕ) * 0 :=
    rsum_const (fun i j hi1 hi2 hj1 hj2 => by
      have hv := fCE_base_val (i := i) (j := j) (by omega) (by omega)
      simp [gCh, hv])
  have h5 : rsum (gCh fCE) 500 830 0 1600
      = ((830 - 500) * (1600 - 0) : ℕ) * 0 :=
    rsum_const (fun i j hi1 hi2 hj1 hj2 => by
      have hv := fCE_base_val (i := i) (j := j) (by omega) (by omega)
      simp [gCh, hv])
  have h6 : rsum (gCh fCE) 830 900 0 800 = ((900 - 830) * (800 - 0) : ℕ) * 0 :=
    rsum_const (fun i j hi1 hi2 hj1 hj2 => by
      simp [gCh, fCE_bl_val hi1 hi2 hj2])
  have h7 : rsum (gCh fCE) 830 900 800 1600
      = ((900 - 830) * (1600 - 800) : ℕ) * 82 :=
    rsum_const (fun i j hi1 hi2 hj1 hj2 => by
      simp [gCh, fCE_br_val hi1 hi2 hj1])
  rw [rsum_split_rows (gCh fCE) 200 0 1600 (by norm_num) (by norm_num),
    rsum_split_rows (a := 200) (b := 900) (gCh fCE) 500 0 1600
      (by norm_num) (by norm_num),
    rsum_split_rows (a := 500) (b := 900) (gCh fCE) 830 0 1600
      (by norm_num) (by norm_num),
    rsum_split_cols (gCh fCE) 200 500 (a := 0) (b := 1600) 450
      (by norm_num) (by norm_num),
    rsum_split_cols (gCh fCE) 200 500 (a := 450) (b := 1600) 850
      (by norm_num) (by norm_num),
    rsum_split_cols (gCh fCE) 830 900 (a := 0) (b := 1600) 800
      (by norm_num) (by norm_num),
    h1, h2, h3, h4, h5, h6, h7]
  norm_num

theorem fCE_r_total : rsum (rCh fCE) 0 900 0 1600 = 24392000 := by
  rw [show rsum (rCh fCE) 0 900 0 1600 = rsum (gCh fCE) 0 900 0 1600 from
    rsum_congr (fun i j _ _ _ _ => (fCE_g_eq_r i j).symm)]
  exact fCE_g_total

theorem fCE_b_header : rsum (bCh fCE) 200 280 550 750 = 1440000 := by
  rw [rsum_const (v := 90) (fun i j hi1 hi2 hj1 hj2 => by
    have hv := fCE_center_val (i := i) (j := j) (by omega) (by omega)
      (by omega) (by omega)
    simp [bCh, hv])]
  norm_num

theorem fCE_g_header : rsum (gCh fCE) 200 280 550 750 = 2640000 := by
  rw [rsum_const (v := 165) (fun i j hi1 hi2 hj1 hj2 => by
    have hv := fCE_center_val (i := i) (j := j) (by omega) (by omega)
      (by omega) (by omega)
    simp [gCh, hv])]
  norm_num

theorem fCE_r_header : rsum (rCh fCE) 200 280 550 750 = 2640000 := by
  rw [show rsum (rCh fCE) 200 280 550 750 = rsum (gCh fCE) 200 280 550 750
    from rsum_congr (fun i j _ _ _ _ => (fCE_g_eq_r i j).symm)]
  exact fCE_g_header

theorem fCE_b_cancel : rsum (bCh fCE) 430 490 700 860 = 810000 := by
  have h1 : rsum (bCh fCE) 430 490 700 850
      = ((490 - 430) * (850 - 700) : ℕ) * 90 :=
    rsum_const (fun i j hi1 hi2 hj1 hj2 => by
      have hv := fCE_center_val (i := i) (j := j) (by omega) (by omega)
        (by omega) (by omega)
      simp [bCh, hv])
  have h2 : rsum (bCh fCE) 430 490 850 860
      = ((490 - 430) * (860 - 850) : ℕ) * 0 :=
    rsum_const (fun i j hi1 hi2 hj1 hj2 => by
      have hv := fCE_base_val (i := i) (j := j) (by omega) (by omega)
      simp [bCh, hv])
  rw [rsum_split_cols (bCh fCE) 430 490 (a := 700) (b := 860) 850
    (by norm_num) (by norm_num), h1, h2]
  norm_num

theorem fCE_g_cancel : rsum (gCh fCE) 430 490 700 860 = 1485000 := by
  have h1 : rsum (gCh fCE) 430 490 700 850
      = ((490 - 430) * (850 - 700) : ℕ) * 165 :=
    rsum_const (fun i j hi1 hi2 hj1 hj2 => by
      have hv := fCE_center_val (i := i) (j := j) (by omega) (by omega)
        (by omega) (by omega)
      simp [gCh, hv])
  have h2 : rsum (gCh fCE) 430 490 850 860
      = ((490 - 430) * (860 - 850) : ℕ) * 0 :=
    rsum_const (fun i j hi1 hi2 hj1 hj2 => by
      have hv := fCE_base_val (i := i) (j := j) (by omega) (by omega)
      simp [gCh, hv])
  rw [rsum_split_cols (gCh fCE) 430 490 (a := 700) (b := 860) 850
    (by norm_num) (by norm_num), h1, h2]
  norm_num

theorem fCE_r_cancel : rsum (rCh fCE) 430 490 700 860 = 1485000 := by
  rw [show rsum (rCh fCE) 430 490 700 860 = rsum (gCh fCE) 430 490 700 860
    from rsum_congr (fun i j _ _ _ _ => (fCE_g_eq_r i j).symm)]
  exact fCE_g_cancel

theorem fCE_gray_center_val {i j : ℕ} (h1 : 200 ≤ i) (h2 : i < 500)
    (h3 : 450 ≤ j) (h4 : j < 850) : grayAt fCE i j = 3129 / 20 := by
  have hv := fCE_center_val h1 h2 h3 h4
  simp only [grayAt, bCh, gCh, rCh, hv]
  norm_num

theorem fCE_gray_center : rsum (grayAt fCE) 200 500 450 850 = 18774000 := by
  rw [rsum_const (v := 3129 / 20) (fun i j hi1 hi2 hj1 hj2 =>
    fCE_gray_center_val hi1 hi2 hj1 hj2)]
  norm_num

theorem fCE_graysq_center :
    rsum (fun i j => grayAt fCE i j ^ 2) 200 500 450 850 = 2937192300 := by
  rw [rsum_const (v := (3129 / 20) ^ 2) (fun i j hi1 hi2 hj1 hj2 => by
    rw [fCE_gray_center_val hi1 hi2 hj1 hj2])]
  norm_num

theorem fCE_b_bottom : rsum (bCh fCE) 830 900 0 1600 = 4592000 := by
  have h1 : rsum (bCh fCE) 830 900 0 800 = ((900 - 830) * (800 - 0) : ℕ) * 0 :=
    rsum_const (fun i j hi1 hi2 hj1 hj2 => by
      simp [bCh, fCE_bl_val hi1 hi2 hj2])
  have h2 : rsum (bCh fCE) 830 900 800 1600
      = ((900 - 830) * (1600 - 800) : ℕ) * 82 :=
    rsum_const (fun i j hi1 hi2 hj1 hj2 => by
      simp [bCh, fCE_br_val hi1 hi2 hj1])
  rw [rsum_split_cols (bCh fCE) 830 900 (a := 0) (b := 1600) 800
    (by norm_num) (by norm_num), h1, h2]
  norm_num

theorem fCE_bottom_g_eq_b (i j : ℕ) (h1 : 830 ≤ i) (h2 : i < 900) :
    gCh fCE i j = bCh fCE i j := by
  by_cases hj : j < 800
  · simp [gCh, bCh, fCE_bl_val h1 h2 hj]
  · have hv := fCE_br_val (i := i) (j := j) h1 h2 (by omega)
    simp [gCh, bCh, hv]

theorem fCE_g_bottom : rsum (gCh fCE) 830 900 0 1600 = 4592000 := by
  rw [rsum_congr (fun i j hi1 hi2 _ _ => fCE_bottom_g_eq_b i j hi1 hi2)]
  exact fCE_b_bottom

theorem fCE_r_bottom : rsum (rCh fCE) 830 900 0 1600 = 4592000 := by
  rw [rsum_congr (fun i j hi1 hi2 _ _ => (fCE_g_eq_r i j).symm)]
  exact fCE_g_bottom

theorem fCE_bsq_bottom :
    rsum (fun i j => bCh fCE i j ^ 2) 830 900 0 1600 = 376544000 := by
  have h1 : rsum (fun i j => bCh fCE i j ^ 2) 830 900 0 800
      = ((900 - 830) * (800 - 0) : ℕ) * 0 :=
    rsum_const (fun i j hi1 hi2 hj1 hj2 => by
      simp [bCh, fCE_bl_val hi1 hi2 hj2])
  have h2 : rsum (fun i j => bCh fCE i j ^ 2) 830 900 800 1600
      = ((900 - 830) * (1600 - 800) : ℕ) * 6724 :=
    rsum_const (fun i j hi1 hi2 hj1 hj2 => by
      simp [bCh, fCE_br_val hi1 hi2 hj1]
      norm_num)
  rw [rsum_split_cols (fun i j => bCh fCE i j ^ 2) 830 900
    (a := 0) (b := 1600) 800 (by norm_num) (by norm_num), h1, h2]
  norm_num

theorem fCE_gsq_bottom :
    rsum (fun i j => gCh fCE i j ^ 2) 830 900 0 1600 = 376544000 := by
  rw [rsum_congr (fun i j hi1 hi2 _ _ => by
    rw [fCE_bottom_g_eq_b i j hi1 hi2])]
  exact fCE_bsq_bottom

theorem fCE_rsq_bottom :
    rsum (fun i j => rCh fCE i j ^ 2) 830 900 0 1600 = 376544000 := by
  rw [rsum_congr (fun i j hi1 hi2 _ _ => by
    rw [← fCE_g_eq_r i j, fCE_bottom_g_eq_b i j hi1 hi2])]
  exact fCE_bsq_bottom

theorem oGt_some {x b : ℚ} (h : b < x) : oGt (some x) b = true := by
  simp [oGt, h]

theorem oLt_some {x b : ℚ} (h : x < b) : oLt (some x) b = true := by
  simp [oLt, h]

/-- `fCE` satisfies the black-screen signature (whole-frame mean
1337/90 ≈ 14.86 < 15). -/
theorem fCE_black : _is_black_screen 900 1600 fCE := by
  have hmean : npMean3 fCE 0 900 0 1600 = some (1337 / 90) := by
    unfold npMean3
    rw [if_pos (by norm_num), fCE_b_total, fCE_g_total, fCE_r_total]
    norm_num [rcount]
  unfold _is_black_screen
  rw [hmean]
  exact oLt_some (by norm_num)

/-- `fCE` satisfies the exit-menu signature. -/
theorem fCE_exit : _is_exit_menu 900 1600 fCE := by
  have hbh : npMean (bCh fCE) 200 280 550 750 = some 90 := by
    unfold npMean
    rw [if_pos (by norm_num), fCE_b_header]
    norm_num [rcount]
  have hgh : npMean (gCh fCE) 200 280 550 750 = some 165 := by
    unfold npMean
    rw [if_pos (by norm_num), fCE_g_header]
    norm_num [rcount]
  have hrh : npMean (rCh fCE) 200 280 550 750 = some 165 := by
    unfold npMean
    rw [if_pos (by norm_num), fCE_r_header]
    norm_num [rcount]
  have hbc : npMean (bCh fCE) 430 490 700 860 = some (675 / 8) := by
    unfold npMean
    rw [if_pos (by norm_num), fCE_b_cancel]
    norm_num [rcount]
  have hgc : npMean (gCh fCE) 430 490 700 860 = some (2475 / 16) := by
    unfold npMean
    rw [if_pos (by norm_num), fCE_g_cancel]
    norm_num [rcount]
  have hrc : npMean (rCh fCE) 430 490 700 860 = some (2475 / 16) := by
    unfold npMean
    rw [if_pos (by norm_num), fCE_r_cancel]
    norm_num [rcount]
  have hgm : npMean (grayAt fCE) 200 500 450 850 = some (3129 / 20) := by
    unfold npMean
    rw [if_pos (by norm_num), fCE_gray_center]
    norm_num [rcount]
  have hvar : npVar (grayAt fCE) 200 500 450 850 = some 0 := by
    unfold npVar
    rw [if_pos (by norm_num), fCE_graysq_center, fCE_gray_center]
    norm_num [rcount]
  show (oGt (npMean (bCh fCE) 200 280 550 750) 60 = true ∧
      oLt (npMean (bCh fCE) 200 280 550 750) 120 = true ∧
      oGt (npMean (gCh fCE) 200 280 550 750) 130 = true ∧
      oLt (npMean (gCh fCE) 200 280 550 750) 200 = true ∧
      oGt (npMean (rCh fCE) 200 280 550 750) 110 = true ∧
      oLt (npMean (rCh fCE) 200 280 550 750) 180 = true) ∧
    (oGt (npMean (bCh fCE) 430 490 700 860) 80 = true ∧
      oLt (npMean (bCh fCE) 430 490 700 860) 150 = true ∧
      oGt (npMean (gCh fCE) 430 490 700 860) 150 = true ∧
      oLt (npMean (gCh fCE) 430 490 700 860) 220 = true ∧
      oGt (npMean (rCh fCE) 430 490 700 860) 150 = true ∧
      oLt (npMean (rCh fCE) 430 490 700 860) 220 = true) ∧
    (oGt (npMean (grayAt fCE) 200 500 450 850) 120 = true ∧
      oLtR (npStd (grayAt fCE) 200 500 450 850) 60)
  refine ⟨⟨?_, ?_, ?_, ?_, ?_, ?_⟩, ⟨?_, ?_, ?_, ?_, ?_, ?_⟩, ?_, ?_⟩
  · rw [hbh]; exact oGt_some (by norm_num)
  · rw [hbh]; exact oLt_some (by norm_num)
  · rw [hgh]; exact oGt_some (by norm_num)
  · rw [hgh]; exact oLt_some (by norm_num)
  · rw [hrh]; exact oGt_some (by norm_num)
  · rw [hrh]; exact oLt_some (by norm_num)
  · rw [hbc]; exact oGt_some (by norm_num)
  · rw [hbc]; exact oLt_some (by norm_num)
  · rw [hgc]; exact oGt_some (by norm_num)
  · rw [hgc]; exact oLt_some (by norm_num)
  · rw [hrc]; exact oGt_some (by norm_num)
  · rw [hrc]; exact oLt_some (by norm_num)
  · rw [hgm]; exact oGt_some (by norm_num)
  · unfold npStd
    rw [hvar]
    show Real.sqrt ((0 : ℚ) : ℝ) < 60
    rw [Rat.cast_zero, Real.sqrt_zero]
    norm_num

/-- `fCE` satisfies the idle-map signature (bottom band mean 41, channel
stds 41 each, colour variance 123 > 80). -/
theorem fCE_map : _is_on_map 900 1600 fCE := by
  have hmean3 : npMean3 fCE 830 900 0 1600 = some 41 := by
    unfold npMean3
    rw [if_pos (by norm_num), fCE_b_bottom, fCE_g_bottom, fCE_r_bottom]
    norm_num [rcount]
  have hvarb : npVar (bCh fCE) 830 900 0 1600 = some 1681 := by
    unfold npVar
    rw [if_pos (by norm_num), fCE_bsq_bottom, fCE_b_bottom]
    norm_num [rcount]
  have hvarg : npVar (gCh fCE) 830 900 0 1600 = some 1681 := by
    unfold npVar
    rw [if_pos (by norm_num), fCE_gsq_bottom, fCE_g_bottom]
    norm_num [rcount]
  have hvarr : npVar (rCh fCE) 830 900 0 1600 = some 1681 := by
    unfold npVar
    rw [if_pos (by norm_num), fCE_rsq_bottom, fCE_r_bottom]
    norm_num [rcount]
  have hs : Real.sqrt ((1681 : ℚ) : ℝ) = 41 := by
    rw [show ((1681 : ℚ) : ℝ) = 41 ^ 2 by norm_num]
    exact Real.sqrt_sq (by norm_num)
  show oGt (npMean3 fCE 830 900 0 1600) 40 = true ∧
    oLt (npMean3 fCE 830 900 0 1600) 160 = true ∧
    (match npStd (bCh fCE) 830 900 0 1600,
        npStd (gCh fCE) 830 900 0 1600,
        npStd (rCh fCE) 830 900 0 1600 with
     | some sb, some sg, some sr => (80 : ℝ) < sb + sg + sr
     | _, _, _ => False)
  refine ⟨?_, ?_, ?_⟩
  · rw [hmean3]; exact oGt_some (by norm_num)
  · rw [hmean3]; exact oLt_some (by norm_num)
  · unfold npStd
    rw [hvarb, hvarg, hvarr]
    show (80 : ℝ) < Real.sqrt ((1681 : ℚ) : ℝ) +
      Real.sqrt ((1681 : ℚ) : ℝ) + Real.sqrt ((1681 : ℚ) : ℝ)
    rw [hs]
    norm_num

/-- On `fCE` the classifier returns `BLACK_SCREEN` (the first priority
check fires before the exit-menu check is ever consulted). -/
theorem fCE_detect : detect_state 900 1600 fCE = .ok blackResult := by
  unfold detect_state
  rw [if_pos fCE_black]

/-- C4 counterexample: a frame satisfying both the exit-menu and
idle-map signatures on which `detect_state` returns `BLACK_SCREEN`, not
`EXIT_MENU` — the priority-1 error checks run before the dangerous-popup
check, so "returns EXIT_MENU" does not hold for *every* such frame. -/
theorem claim_C4_counterexample :
    _is_exit_menu 900 1600 fCE ∧ _is_on_map 900 1600 fCE ∧
    detect_state 900 1600 fCE = .ok blackResult ∧
    blackResult.state ≠ GameState.EXIT_MENU ∧
    blackResult.state ≠ GameState.IDLE_MAP :=
  ⟨fCE_exit, fCE_map, fCE_detect, by decide, by decide⟩

/-- C4 (amended): for every frame satisfying both the exit-menu and
idle-map signatures, `detect_state` never returns `IDLE_MAP` (the
exit-menu check always precedes the map check); and it returns
`EXIT_MENU` provided none of the priority-1 error checks (black screen,
loading, connection error) fires first. -/
theorem claim_C4 (f : Frame)
    (hexit : _is_exit_menu 900 1600 f) (_hmap : _is_on_map 900 1600 f) :
    (∀ r, detect_state 900 1600 f = .ok r →
      r.state ≠ GameState.IDLE_MAP) ∧
    (¬ _is_black_screen 900 1600 f → ¬ _is_loading 900 1600 f →
      ¬ _is_connection_error 900 1600 f →
      detect_state 900 1600 f = .ok exitResult) := by
  have hnl : ¬ loadingRegionEmpty 900 1600 := by
    unfold loadingRegionEmpty loadingRegion
    decide
  constructor
  · intro r hr
    unfold detect_state at hr
    by_cases h1 : _is_black_screen 900 1600 f
    · rw [if_pos h1] at hr
      injection hr with hr
      rw [← hr]
      decide
    · rw [if_neg h1, if_neg hnl] at hr
      by_cases h2 : _is_loading 900 1600 f
      · rw [if_pos h2] at hr
        injection hr with hr
        rw [← hr]
        decide
      · rw [if_neg h2] at hr
        by_cases h3 : _is_connection_error 900 1600 f
        · rw [if_pos h3] at hr
          injection hr with hr
          rw [← hr]
          decide
        · rw [if_neg h3, if_pos hexit] at hr
          injection hr with hr
          rw [← hr]
          decide
  · intro hnb hnlo hnc
    unfold detect_state
    rw [if_neg hnb, if_neg hnl, if_neg hnlo, if_neg hnc, if_pos hexit]

/-- C4 witness: the amended statement applied to the concrete frame that
satisfies both signatures. -/
theorem claim_C4_witness :
    _is_exit_menu 900 1600 fCE ∧ _is_on_map 900 1600 fCE ∧
    (∀ r, detect_state 900 1600 fCE = .ok r →
      r.state ≠ GameState.IDLE_MAP) :=
  ⟨fCE_exit, fCE_map, (claim_C4 fCE fCE_exit fCE_map).1⟩

/-- C6 (amended): for well-formed 1600×900 frames `detect_state` never
raises — every run returns a result — and every returned result has
confidence at least 3/10 (so no result ever carries confidence 0; the
`UNKNOWN` default has confidence 0.3). -/
theorem claim_C6 :
    (∀ f : Frame, (detect_state 900 1600 f).isOk = true) ∧
    (∀ (f : Frame) (r : StateDetectionResult),
      detect_state 900 1600 f = .ok r → 3 / 10 ≤ r.confidence) := by
  have hnl : ¬ loadingRegionEmpty 900 1600 := by
    unfold loadingRegionEmpty loadingRegion
    decide
  have hnr : ¬ rankingsRegionEmpty 900 1600 := by
    unfold rankingsRegionEmpty
    decide
  constructor
  · intro f
    unfold detect_state
    by_cases h1 : _is_black_screen 900 1600 f
    · rw [if_pos h1]; rfl
    rw [if_neg h1, if_neg hnl]
    by_cases h2 : _is_loading 900 1600 f
    · rw [if_pos h2]; rfl
    rw [if_neg h2]
    by_cases h3 : _is_connection_error 900 1600 f
    · rw [if_pos h3]; rfl
    rw [if_neg h3]
    by_cases h4 : _is_exit_menu 900 1600 f
    · rw [if_pos h4]; rfl
    rw [if_neg h4]
    by_cases h5 : _is_governor_profile 900 1600 f
    · rw [if_pos h5]; rfl
    rw [if_neg h5, if_neg hnr]
    by_cases h6 : _is_rankings_screen 900 1600 f
    · rw [if_pos h6]; rfl
    rw [if_neg h6]
    by_cases h7 : _is_on_map 900 1600 f
    · rw [if_pos h7]; rfl
    rw [if_neg h7]
    rfl
  · intro f r hr
    unfold detect_state at hr
    by_cases h1 : _is_black_screen 900 1600 f
    · rw [if_pos h1] at hr
      injection hr with hr
      rw [← hr]
      norm_num [blackResult]
    rw [if_neg h1, if_neg hnl] at hr
    by_cases h2 : _is_loading 900 1600 f
    · rw [if_pos h2] at hr
      injection hr with hr
      rw [← hr]
      norm_num [loadingResult]
    rw [if_neg h2] at hr
    by_cases h3 : _is_connection_error 900 1600 f
    · rw [if_pos h3] at hr
      injection hr with hr
      rw [← hr]
      norm_num [connectionResult]
    rw [if_neg h3] at hr
    by_cases h4 : _is_exit_menu 900 1600 f
    · rw [if_pos h4] at hr
      injection hr with hr
      rw [← hr]
      norm_num [exitResult]
    rw [if_neg h4] at hr
    by_cases h5 : _is_governor_profile 900 1600 f
    · rw [if_pos h5] at hr
      injection hr with hr
      rw [← hr]
      norm_num [governorResult]
    rw [if_neg h5, if_neg hnr] at hr
    by_cases h6 : _is_rankings_screen 900 1600 f
    · rw [if_pos h6] at hr
      injection hr with hr
      rw [← hr]
      norm_num [rankingsResult]
    rw [if_neg h6] at hr
    by_cases h7 : _is_on_map 900 1600 f
    · rw [if_pos h7] at hr
      injection hr with hr
      rw [← hr]
      norm_num [idleResult]
    rw [if_neg h7] at hr
    injection hr with hr
    rw [← hr]
    norm_num [unknownResult]

/-- C6 counterexample: a malformed (0×0) frame does not yield `UNKNOWN`
with confidence 0 — classification raises instead (the empty-region
`cv2.cvtColor` in `_is_loading` is uncaught). -/
theorem claim_C6_counterexample :
    detect_state 0 0 fZero =
      .error "cv2.cvtColor: empty input in _is_loading" := by
  have hb : ¬ _is_black_screen 0 0 fZero := by
    unfold _is_black_screen npMean3
    rw [if_neg (by norm_num)]
    simp [oLt]
  have hl : loadingRegionEmpty 0 0 := by
    unfold loadingRegionEmpty loadingRegion
    decide
  unfold detect_state
  rw [if_neg hb, if_pos hl]

/-- C6 witness: on the all-black well-formed frame, classification
returns a result (`BLACK_SCREEN`) whose confidence is at least 3/10. -/
theorem claim_C6_witness :
    detect_state 900 1600 fZero = .ok blackResult ∧
    3 / 10 ≤ blackResult.confidence := by
  have hz : npMean3 fZero 0 900 0 1600 = some 0 := by
    unfold npMean3
    rw [if_pos (by norm_num),
      rsum_const (g := bCh fZero) (v := 0) (fun _ _ _ _ _ _ => rfl),
      rsum_const (g := gCh fZero) (v := 0) (fun _ _ _ _ _ _ => rfl),
      rsum_const (g := rCh fZero) (v := 0) (fun _ _ _ _ _ _ => rfl)]
    norm_num
  have hzb : _is_black_screen 900 1600 fZero := by
    unfold _is_black_screen
    rw [hz]
    exact oLt_some (by norm_num)
  have hd : detect_state 900 1600 fZero = .ok blackResult := by
    unfold detect_state
    rw [if_pos hzb]
  exact ⟨hd, claim_C6.2 fZero blackResult hd⟩

/-! ## OCR text cleaning (`ChatParser._clean_ocr_text`, vision_system.py)

Strings are processed as character lists. The Unicode general-category
test of the control-character filter is modelled exactly on ASCII
(printable ASCII is kept, C0 controls other than tab/newline are
dropped) and on the explicit control/format ranges below; all other
non-ASCII characters are kept (Python also drops combining marks and
unassigned codepoints, which do not occur in the OCR alphabet this
pipeline handles). The dead `elif cat == 'Zs'` branch of the source
(shadowed by the `'Z'` test of the main branch) has no effect and is not
modelled. -/

/-- Characters kept by the control-character filter. -/
def keepChar (c : Char) : Bool :=
  if c = '\n' || c = '\t' then true
  else if c.toNat < 0x20 then false
  else if c.toNat = 0x7F then false
  else if 0x80 ≤ c.toNat && c.toNat ≤ 0x9F then false
  else if 0x200B ≤ c.toNat && c.toNat ≤ 0x200F then false
  else if 0x202A ≤ c.toNat && c.toNat ≤ 0x202E then false
  else if 0x2060 ≤ c.toNat && c.toNat ≤ 0x2064 then false
  else if c.toNat = 0xFEFF then false
  else true

/-- The seven sequential single-character `str.replace` calls, as one
per-character map (correct because no replacement output is a later
replacement input: the outputs are `]`, `[`, `:`; the inputs are `|`,
`(`, `)`, `ﬂ`, `ﬁ`, `﹥`, `﹕`). -/
def fixChar (c : Char) : Option Char :=
  if c = '|' then some ']'
  else if c = '(' then some '['
  else if c = ')' then some ']'
  else if c.toNat = 0xFB02 then none
  else if c.toNat = 0xFB01 then none
  else if c.toNat = 0xFE65 then some ':'
  else if c.toNat = 0xFE55 then some ':'
  else some c

/-- Circled digits `①`–`⑩` (U+2460–U+2469). -/
def isCircled (c : Char) : Bool :=
  0x2460 ≤ c.toNat && c.toNat ≤ 0x2469

/-- The tag character class of the bracket-repair regexes:
`[A-Z0-9①②③④⑤⑥⑦⑧⑨⑩]`. -/
def isTagChar (c : Char) : Bool :=
  (0x41 ≤ c.toNat && c.toNat ≤ 0x5A) ||
  (0x30 ≤ c.toNat && c.toNat ≤ 0x39) || isCircled c

/-- Regex class `[A-Z]`. -/
def isUpperA (c : Char) : Bool := 0x41 ≤ c.toNat && c.toNat ≤ 0x5A

/-- Regex class `[A-Za-z]`. -/
def isAsciiLetter (c : Char) : Bool :=
  (0x41 ≤ c.toNat && c.toNat ≤ 0x5A) || (0x61 ≤ c.toNat && c.toNat ≤ 0x7A)

/-- Lookahead `(?=[A-Z])`. -/
def lookUpper : List Char → Bool
  | u :: _ => isUpperA u
  | [] => false

/-- Lookahead `(?=[A-Z]{2}\s)`. -/
def look1b : List Char → Bool
  | u :: v :: w :: _ => isUpperA u && isUpperA v && pyIsSpace w
  | _ => false

/-- Negative lookahead `(?!\])` (succeeds at end of string). -/
def lookNotRB : List Char → Bool
  | ']' :: _ => false
  | _ => true

/-- Matcher for `\[([A-Z0-9①-⑩]{3,4})l(?=[A-Z])` at a position whose
`[` has been consumed: returns the replacement tail (tag and `]`) and
the rest of the input after the consumed `l`. Greedy `{3,4}`: the
four-character reading is tried first; when only three tag characters
precede the `l` the three-character reading applies (a failed
four-character reading cannot backtrack to three, because the fourth
character would have to be the lowercase `l`, which is not in the tag
class). -/
def try1 (r : List Char) : Option (List Char × List Char) :=
  match r with
  | a :: b :: c :: d :: rest =>
    if isTagChar a && isTagChar b && isTagChar c then
      if isTagChar d then
        match rest with
        | 'l' :: rest2 =>
          if lookUpper rest2 then some ([a, b, c, d, ']'], rest2) else none
        | _ => none
      else if d = 'l' then
        if lookUpper rest then some ([a, b, c, ']'], rest) else none
      else none
    else none
  | _ => none

/-- The three-character fallback of the `]E`→`J` repair regex: tag
`a b c`, matched `J` at the fourth position, lookahead on `rest`. -/
def fall1b (a b c d : Char) (rest : List Char) :
    Option (List Char × List Char) :=
  if d = 'J' && look1b rest then some ([a, b, c, ']'], rest) else none

/-- Matcher for `\[([A-Z0-9①-⑩]{3,4})J(?=[A-Z]{2}\s)` (the `]E`→`J`
collapse repair). Greedy `{3,4}`: the four-character reading is tried
first; every way it can fail backtracks to the three-character reading
`fall1b` (here `J` *is* a tag character, so both readings are live). -/
def try1b (r : List Char) : Option (List Char × List Char) :=
  match r with
  | a :: b :: c :: d :: rest =>
    if isTagChar a && isTagChar b && isTagChar c then
      if isTagChar d then
        match rest with
        | 'J' :: rest2 =>
          if look1b rest2 then some ([a, b, c, d, ']'], rest2)
          else fall1b a b c d rest
        | _ => fall1b a b c d rest
      else fall1b a b c d rest
    else none
  | _ => none

/-- The three-character fallback of the general missing-`]` repair:
tag `a b c`, glued letter `d`, negative lookahead on `rest`. -/
def fall2 (a b c d : Char) (rest : List Char) :
    Option (List Char × List Char) :=
  if isAsciiLetter d && lookNotRB rest then some ([a, b, c, ']', d], rest)
  else none

/-- Matcher for `\[([A-Z0-9①-⑩]{3,4})([A-Za-z])(?!\])` (general missing
`]` repair; the negative lookahead protects already-correct tags). The
replacement keeps the glued letter after the inserted `]`; greedy
`{3,4}` with the three-character fallback `fall2` on any four-character
failure. -/
def try2 (r : List Char) : Option (List Char × List Char) :=
  match r with
  | a :: b :: c :: d :: rest =>
    if isTagChar a && isTagChar b && isTagChar c then
      if isTagChar d then
        match rest with
        | e :: rest2 =>
          if isAsciiLetter e && lookNotRB rest2 then
            some ([a, b, c, d, ']', e], rest2)
          else fall2 a b c d rest
        | [] => fall2 a b c d rest
      else fall2 a b c d rest
    else none
  | _ => none

theorem try1_length {r : List Char} {p : List Char × List Char}
    (h : try1 r = some p) : p.2.length < r.length := by
  unfold try1 at h
  split at h
  · split at h
    · split at h
      · split at h
        · split at h
          · injection h with h
            subst h
            simp
            omega
          · cases h
        · cases h
      · split at h
        · split at h
          · injection h with h
            subst h
            simp
            omega
          · cases h
        · cases h
    · cases h
  · cases h

theorem fall1b_length {a b c d : Char} {rest : List Char}
    {p : List Char × List Char} (h : fall1b a b c d rest = some p) :
    p.2 = rest := by
  unfold fall1b at h
  split at h
  · injection h with h
    subst h
    rfl
  · cases h

theorem try1b_length {r : List Char} {p : List Char × List Char}
    (h : try1b r = some p) : p.2.length < r.length := by
  unfold try1b at h
  split at h
  · split at h
    · split at h
      · split at h
        · split at h
          · injection h with h
            subst h
            simp
            omega
          · rw [fall1b_length h]
            simp only [List.length_cons]
            omega
        · rw [fall1b_length h]
          simp only [List.length_cons]
          omega
      · rw [fall1b_length h]
        simp only [List.length_cons]
        omega
    · cases h
  · cases h

theorem fall2_length {a b c d : Char} {rest : List Char}
    {p : List Char × List Char} (h : fall2 a b c d rest = some p) :
    p.2 = rest := by
  unfold fall2 at h
  split at h
  · injection h with h
    subst h
    rfl
  · cases h

theorem try2_length {r : List Char} {p : List Char × List Char}
    (h : try2 r = some p) : p.2.length < r.length := by
  unfold try2 at h
  split at h
  · split at h
    · split at h
      · split at h
        · split at h
          · injection h with h
            subst h
            simp
            omega
          · rw [fall2_length h]
            simp only [List.length_cons]
            omega
        · rw [fall2_length h]
          simp only [List.length_cons]
          omega
      · rw [fall2_length h]
        simp only [List.length_cons]
        omega
    · cases h
  · cases h

/-- Generic `re.sub` scanner for the three bracket-repair regexes: scan
left to right; at each `[` attempt the matcher; on a match emit `[`, the
replacement tail, and continue after the consumed text (non-overlapping,
leftmost-first, exactly like `re.sub`); otherwise copy one character.
The structural fuel bounds the number of scanning steps; the wrappers
pass the input length, which suffices because a match always consumes at
least one character (`try1_length`, `try1b_length`, `try2_length`), and
exhausted fuel copies the unscanned remainder. -/
def runSub (tryF : List Char → Option (List Char × List Char)) :
    ℕ → List Char → List Char
  | _, [] => []
  | 0, l => l
  | fuel + 1, c :: rest =>
    if c = '[' then
      match tryF rest with
      | some (out, rest2) => '[' :: (out ++ runSub tryF fuel rest2)
      | none => '[' :: runSub tryF fuel rest
    else c :: runSub tryF fuel rest

/-- First bracket repair (`[TAGl` + uppercase → `[TAG]`). -/
def sub1 (l : List Char) : List Char := runSub try1 l.length l

/-- Second bracket repair (`[TAGJ` + `ED ` pattern → `[TAG]`). -/
def sub1b (l : List Char) : List Char := runSub try1b l.length l

/-- Third bracket repair (insert `]` after a glued 3–4 character tag). -/
def sub2 (l : List Char) : List Char := runSub try2 l.length l

/-- `re.sub(r'\s+', ' ', text)`: each maximal whitespace run becomes a
single space (structural fuel; the wrapper passes the input length,
which suffices because each step consumes at least one character). -/
def collapseWsF : ℕ → List Char → List Char
  | _, [] => []
  | 0, l => l
  | fuel + 1, c :: rest =>
    if pyIsSpace c then ' ' :: collapseWsF fuel (rest.dropWhile pyIsSpace)
    else c :: collapseWsF fuel rest

/-- `re.sub(r'\s+', ' ', text)`. -/
def collapseWs (l : List Char) : List Char := collapseWsF l.length l

/-- `ChatParser._clean_ocr_text` on character lists: control filter,
confusion replacements, the three bracket repairs, whitespace collapse,
strip. -/
def _clean_ocr_text (l : List Char) : List Char :=
  pyStripList (collapseWs (sub2 (sub1b (sub1
    ((l.filter keepChar).filterMap fixChar)))))

/-- `ChatParser._clean_ocr_text` on strings. -/
def clean_ocr (s : String) : String :=
  ⟨_clean_ocr_text s.data⟩

/-! ## Chat message parsing (`ChatParser.parse_messages`) -/

/-- Dataclass `ChatMessage` (vision_system.py). -/
structure ChatMessage where
  alliance_tag : String
  player_name : String
  message : String
  raw_text : String
deriving Repr, DecidableEq

/-- `ChatParser.title_keywords` (full keywords only, no abbreviations). -/
def titleKeywords : List (List Char) :=
  ["duke".data, "scientist".data, "architect".data, "justice".data,
   "title".data, "titulo".data, "titre".data, "titlu".data]

/-- Python regex `\w` (word character): ASCII alphanumerics and `_`,
the circled digits (numeric, hence word characters), and the other
non-ASCII letters the OCR alphabet meets (e.g. `ー`, CJK); the general
punctuation, symbol and CJK-punctuation blocks are non-word. -/
def isWordChar (c : Char) : Bool :=
  isAsciiLetter c || ('0' ≤ c && c ≤ '9') || c = '_' || isCircled c ||
  (0x80 ≤ c.toNat &&
    !((0x2000 ≤ c.toNat && c.toNat ≤ 0x2BFF) ||
      (0x3000 ≤ c.toNat && c.toNat ≤ 0x303F) ||
      (0xFE10 ≤ c.toNat && c.toNat ≤ 0xFE6F)))

/-- The keyword end-guard `(?=$|[\s\W])`. -/
def endGuard : List Char → Bool
  | [] => true
  | c :: _ => pyIsSpace c || !(isWordChar c)

/-- Case-insensitive prefix match of a (lowercase) keyword. -/
def kwPrefix : List Char → List Char → Bool
  | [], _ => true
  | _ :: _, [] => false
  | k :: ks, c :: cs => (Char.toLower c == k) && kwPrefix ks cs

/-- `re.finditer(rf'{keyword}(?=$|[\s\W])', joined, re.IGNORECASE)`:
all non-overlapping matches of one keyword with the end-guard, as
`(start, end, keyword)` triples (structural fuel, passed as the input
length by `findKw`). -/
def findKwF (k : Char) (ks : List Char) :
    ℕ → ℕ → List Char → List (ℕ × ℕ × List Char)
  | _, _, [] => []
  | 0, _, _ => []
  | fuel + 1, pos, c :: rest =>
    if kwPrefix (k :: ks) (c :: rest) && endGuard (rest.drop ks.length)
    then
      (pos, pos + ks.length + 1, k :: ks) ::
        findKwF k ks fuel (pos + ks.length + 1) (rest.drop ks.length)
    else findKwF k ks fuel (pos + 1) rest

/-- All matches of one keyword over the text. -/
def findKw (k : Char) (ks : List Char) (pos : ℕ) (l : List Char) :
    List (ℕ × ℕ × List Char) :=
  findKwF k ks l.length pos l

/-- Strict ordering of keyword positions for Python's
`title_positions.sort()` (tuples compare lexicographically; no two
matches share both start and end). -/
def posLt (x y : ℕ × ℕ × List Char) : Bool :=
  x.1 < y.1 || (x.1 == y.1 && x.2.1 < y.2.1)

/-- Insertion into a sorted position list (stable, like `list.sort`). -/
def insertSorted (x : ℕ × ℕ × List Char) :
    List (ℕ × ℕ × List Char) → List (ℕ × ℕ × List Char)
  | [] => [x]
  | y :: ys => if posLt y x then y :: insertSorted x ys else x :: y :: ys

/-- Sort a position list. -/
def sortPositions (l : List (ℕ × ℕ × List Char)) :
    List (ℕ × ℕ × List Char) :=
  l.foldl (fun acc x => insertSorted x acc) []

/-- All title-keyword positions of the joined text, sorted. -/
def titlePositions (joined : List Char) : List (ℕ × ℕ × List Char) :=
  sortPositions (titleKeywords.flatMap (fun kw =>
    match kw with
    | [] => []
    | k :: ks => findKw k ks 0 joined))

/-- The tag-pattern character class `[A-Za-z0-9①②③④⑤⑥⑦⑧⑨⑩]` (unlike
the repair regexes, lowercase letters are allowed here). -/
def isTagAlnum (c : Char) : Bool :=
  isAsciiLetter c || ('0' ≤ c && c ≤ '9') || isCircled c

/-- The separator class `[\s:]` of the tag pattern. -/
def sepChar (c : Char) : Bool := pyIsSpace c || c = ':'

/-- The keyword alternation
`(duke|scientist|architect|justice|title|titulo|titre|titlu)` with the
end-guard, tried in pattern order. -/
def tryKwAlt : List (List Char) → List Char → Option (List Char)
  | [], _ => none
  | kw :: kws, s =>
    if kwPrefix kw s && endGuard (s.drop kw.length) then some kw
    else tryKwAlt kws s

/-- Backtracking of the optional greedy separator `(?:[\s:]+)?` before
the keyword: try the maximal separator run first, shorten it step by
step, and finally try the keyword with no separator at all. Returns the
keyword and the number of separator characters consumed. -/
def sepDownFrom (s : List Char) : ℕ → Option (List Char × ℕ)
  | 0 => (tryKwAlt titleKeywords s).map (fun kw => (kw, 0))
  | t + 1 =>
    match (tryKwAlt titleKeywords (s.drop (t + 1))).map
        (fun kw => (kw, t + 1)) with
    | some x => some x
    | none => sepDownFrom s t

/-- Optional separator then keyword, starting from the maximal
separator run. -/
def trySepKw (s : List Char) : Option (List Char × ℕ) :=
  sepDownFrom s (s.takeWhile sepChar).length

/-- The lazy name group `([^:\[]+?)` of the tag pattern: extend the
name one character at a time (shortest first, as `+?` demands), trying
the separator-plus-keyword continuation after each extension; a `:` or
`[` can never join the group. Returns the name, the keyword, and the
total number of characters consumed from the start of the group. -/
def tagGroup2 (acc : List Char) : List Char → Option (List Char × List Char × ℕ)
  | [] => none
  | c :: rest =>
    if c = ':' || c = '[' then none
    else
      match trySepKw rest with
      | some (kw, t) =>
        some ((c :: acc).reverse, kw, (c :: acc).length + t + kw.length)
      | none => tagGroup2 (c :: acc) rest

/-- One attempt of the full tagged-message pattern
`\[([A-Za-z0-9①-⑩]{1,8})\]([^:\[]+?)(?:[\s:]+)?(kw...)(?=$|[\s\W])` at
the head of `s`: returns the tag, the raw name group, the keyword, and
the number of characters consumed. The `{1,8}` tag group reduces to the
maximal run of tag characters (a shorter reading would put a tag
character where the `]` must be). -/
def tryTagPattern (s : List Char) : Option (List Char × List Char × List Char × ℕ) :=
  match s with
  | '[' :: s1 =>
    let run := s1.takeWhile isTagAlnum
    if run.length = 0 || 8 < run.length then none
    else
      match s1.drop run.length with
      | ']' :: s2 =>
        match tagGroup2 [] s2 with
        | some (name, kw, consumed) =>
          some (run, name, kw, 1 + run.length + 1 + consumed)
        | none => none
      | _ => none
  | _ => none

theorem tryTagPattern_pos {s : List Char}
    {q : List Char × List Char × List Char × ℕ}
    (h : tryTagPattern s = some q) : 1 ≤ q.2.2.2 := by
  simp only [tryTagPattern] at h
  split at h
  · split at h
    · cases h
    · split at h
      · split at h
        · injection h with h
          subst h
          simp
          omega
        · cases h
      · cases h
  · cases h

/-- `re.finditer` of the tag pattern over the joined text, with match
positions: `(start, end, tag, raw name, keyword)`; non-overlapping,
scanning resumes after each match (structural fuel, passed as the input
length by `findTagMatches`; a match consumes at least one character by
`tryTagPattern_pos`). -/
def findTagMatchesF :
    ℕ → ℕ → List Char → List (ℕ × ℕ × List Char × List Char × List Char)
  | _, _, [] => []
  | 0, _, _ => []
  | fuel + 1, pos, c :: rest =>
    match tryTagPattern (c :: rest) with
    | some (run, name, kw, consumed) =>
      (pos, pos + consumed, run, name, kw) ::
        findTagMatchesF fuel (pos + consumed) ((c :: rest).drop consumed)
    | none => findTagMatchesF fuel (pos + 1) rest

/-- All tag-pattern matches over the text. -/
def findTagMatches (pos : ℕ) (l : List Char) :
    List (ℕ × ℕ × List Char × List Char × List Char) :=
  findTagMatchesF l.length pos l

/-- `ChatParser._normalize_tag`: the sequential single-character
replaces (circled digits to digits, `O`/`o` to `0`, `l`/`I` to `1`) as
one per-character map (inputs and outputs are disjoint). -/
def normTagChar (c : Char) : Char :=
  if 0x2460 ≤ c.toNat && c.toNat ≤ 0x2468 then
    Char.ofNat (c.toNat - 0x2460 + 0x31)
  else if c.toNat = 0x2469 then '0'
  else if c = 'O' || c = 'o' then '0'
  else if c = 'l' || c = 'I' then '1'
  else c

/-- `_normalize_tag` on character lists. -/
def _normalize_tag (l : List Char) : List Char := l.map normTagChar

/-- The circled-digit map of `_normalize_player_name`. -/
def circleChar (c : Char) : Char :=
  if 0x2460 ≤ c.toNat && c.toNat ≤ 0x2468 then
    Char.ofNat (c.toNat - 0x2460 + 0x31)
  else if c.toNat = 0x2469 then '0'
  else c

/-- Index of the first occurrence of `sub` in `l`, if any (Python
`str.find`). -/
def findFirstSub (sub : List Char) : List Char → Option ℕ
  | [] => if sub.isEmpty then some 0 else none
  | c :: rest =>
    if sub.isPrefixOf (c :: rest) then some 0
    else (findFirstSub sub rest).map (· + 1)

/-- A found occurrence of `sub` lies inside `l`. -/
theorem findFirstSub_le {sub l : List Char} {i : ℕ}
    (h : findFirstSub sub l = some i) : i + sub.length ≤ l.length := by
  induction l generalizing i with
  | nil =>
    unfold findFirstSub at h
    split at h
    · injection h with h
      subst h
      simp_all [List.isEmpty_iff]
    · cases h
  | cons c rest ih =>
    unfold findFirstSub at h
    split at h
    · injection h with h
      subst h
      have hp := List.isPrefixOf_iff_prefix.mp (by assumption)
      simpa using hp.length_le
    · cases hf : findFirstSub sub rest with
      | none =>
        rw [hf] at h
        cases h
      | some j =>
        rw [hf] at h
        injection h with h
        subst h
        have := ih hf
        simp only [List.length_cons]
        omega

/-- Python `s.split(sep)[-1]`: the suffix after the last non-overlapping
occurrence of the (non-empty) separator; `l` itself when absent
(structural fuel, passed as the input length by `afterLastSep`). -/
def afterLastSepF (s0 : Char) (srest : List Char) :
    ℕ → List Char → List Char
  | 0, l => l
  | fuel + 1, l =>
    match findFirstSub (s0 :: srest) l with
    | none => l
    | some i => afterLastSepF s0 srest fuel (l.drop (i + srest.length + 1))

/-- Python `s.split(sep)[-1]` for a non-empty separator `s0 :: srest`. -/
def afterLastSep (s0 : Char) (srest : List Char) (l : List Char) :
    List Char :=
  afterLastSepF s0 srest l.length l

/-- `ChatParser._normalize_player_name`: circled digits to digits, drop
leading OCR garbage before the first ASCII letter, keep only the text
after separator artifacts, drop a leading `l` before an uppercase
letter, strip. -/
def _normalize_player_name (l : List Char) : List Char :=
  let r1 := l.map circleChar
  let r2 := if r1.any isAsciiLetter then
      r1.dropWhile (fun c => !(isAsciiLetter c))
    else r1
  let r3 := afterLastSep 'ー' ['ー', 'ー'] r2
  let r4 := afterLastSep '-' ['-', '-'] r3
  let r5 := afterLastSep '—' ['—', '—'] r4
  let r6 := match r5 with
    | 'l' :: c :: rest => if isUpperA c then c :: rest else r5
    | _ => r5
  pyStripList r6

/-- `str.split('\n')`. -/
def splitNl : List Char → List (List Char)
  | [] => [[]]
  | c :: rest =>
    if c = '\n' then [] :: splitNl rest
    else
      match splitNl rest with
      | h :: t => (c :: h) :: t
      | [] => [[c]]

/-- `' '.join(...)`. -/
def joinSp : List (List Char) → List Char
  | [] => []
  | [x] => x
  | x :: y :: rest => x ++ ' ' :: joinSp (y :: rest)

/-- Python slice `l[a:b]`. -/
def sliceL (l : List Char) (a b : ℕ) : List Char := (l.drop a).take (b - a)

/-- `re.sub(r'[:\s]+$', '', name)`: drop the trailing run of colon or
whitespace characters. -/
def dropTrailingSep (l : List Char) : List Char :=
  (l.reverse.dropWhile sepChar).reverse

/-- Character of `l` at index `n` (indices used are always in range). -/
def charAtD (l : List Char) (n : ℕ) : Char := l.getD n ' '

/-- The backwards walk locating the end of an untagged player name:
`while name_end > 0 and joined_text[name_end-1] in ' :': name_end -= 1`. -/
def backScan (l : List Char) : ℕ → ℕ
  | 0 => 0
  | n + 1 =>
    if charAtD l n = ' ' || charAtD l n = ':' then backScan l n
    else n + 1

/-- The forward walk locating the start of an untagged player name:
`while name_start < name_end and joined_text[name_start] in ' :'`
(structural fuel `stop - start`, which counts the loop iterations
exactly). -/
def fwdScanF (l : List Char) : ℕ → ℕ → ℕ
  | 0, start => start
  | fuel + 1, start =>
    if charAtD l start = ' ' || charAtD l start = ':' then
      fwdScanF l fuel (start + 1)
    else start

/-- The forward walk from `start` bounded by `stop`. -/
def fwdScan (l : List Char) (stop start : ℕ) : ℕ :=
  fwdScanF l (stop - start) start

/-- The fields of `ChatParser._clean_message`: locate the first (in list
order) of the four core title keywords in the lowercased message, keep
the text up to the keyword plus at most one following short alphabetic
word. -/
def findKwIn : List (List Char) → List Char → Option (ℕ × ℕ)
  | [], _ => none
  | kw :: kws, ml =>
    match findFirstSub kw ml with
    | some i => some (i, i + kw.length)
    | none => findKwIn kws ml

/-- `ChatParser._clean_message` on character lists. -/
def _clean_message (m : List Char) : List Char :=
  let ml := m.map Char.toLower
  match findKwIn ["duke".data, "scientist".data, "architect".data,
      "justice".data] ml with
  | none => m
  | some (_, kwEnd) =>
    let remaining := pyStripList (m.drop kwEnd)
    if remaining ≠ [] then
      let w0 := remaining.takeWhile (fun c => !(pyIsSpace c))
      if w0 ≠ [] ∧ w0.length < 10 ∧ w0.all isAsciiLetter then
        m.take kwEnd ++ ' ' :: w0
      else m.take kwEnd
    else m.take kwEnd

/-- Lowercase a character list (Python `str.lower`, ASCII scope). -/
def lowerL (l : List Char) : List Char := l.map Char.toLower

/-- `ChatParser.parse_messages`: clean the OCR text, join the lines,
collect the tagged matches, add untagged keyword hits whose player name
survives normalization, then deduplicate by lowercased player name
(first occurrence wins) while cleaning each kept message. -/
def parse_messages (s : String) : List ChatMessage :=
  if s.data = [] then []
  else
    let cleaned := _clean_ocr_text s.data
    let lines := splitNl (pyStripList cleaned)
    let joined := joinSp ((lines.map pyStripList).filter (fun x => x ≠ []))
    let positions := titlePositions joined
    let tagged := findTagMatches 0 joined
    let tpairs := tagged.filterMap (fun m =>
      let st := m.1
      let en := m.2.1
      let run := m.2.2.1
      let name := m.2.2.2.1
      let kw := m.2.2.2.2
      let pname := _normalize_player_name (_clean_ocr_text
        (dropTrailingSep (pyStripList name)))
      if pname ≠ [] ∧ kw ≠ [] then
        some ((st, en), ChatMessage.mk ⟨_normalize_tag run⟩ ⟨pname⟩ ⟨kw⟩
          ⟨sliceL joined st en⟩)
      else none)
    let tagged_ranges := tpairs.map (fun p => p.1)
    let messages0 := tpairs.map (fun p => p.2)
    let messages1 := positions.foldl (fun msgs pos =>
      let ts := pos.1
      let kw := pos.2.2
      if tagged_ranges.any (fun r =>
          decide (r.1 ≤ ts) && decide (ts ≤ r.2)) then msgs
      else
        let name_end := backScan joined ts
        let prev := positions.foldl (fun acc p =>
          if p.2.1 < name_end ∧ acc < p.2.1 then p.2.1 else acc) 0
        let name_start := fwdScan joined name_end prev
        let pname := _normalize_player_name (_clean_ocr_text
          (pyStripList (sliceL joined name_start name_end)))
        let headOk : Bool := match pname with
          | c :: _ => decide (c ≠ 'ー')
          | [] => true
        if decide (2 ≤ pname.length) && headOk &&
            !(msgs.any (fun m => lowerL m.player_name.data == lowerL pname))
        then
          msgs ++ [ChatMessage.mk "" ⟨pname⟩ ⟨kw⟩ ⟨pname ++ ' ' :: kw⟩]
        else msgs) messages0
    (messages1.foldl (fun acc msg =>
      let key := lowerL msg.player_name.data
      if acc.2.contains key then acc
      else (acc.1 ++ [{ msg with
          message := ⟨_clean_message msg.message.data⟩ }],
        acc.2 ++ [key])) (([], []) :
          List ChatMessage × List (List Char))).1

/-- C7: the bracket-loss OCR line `"[F28AlWATUZI scientist"` is repaired
by the cleaning pass to `"[F28A]WATUZI scientist"` and parses to exactly
one message with tag `F28A`, player `WATUZI` and message `scientist`. -/
theorem claim_C7 :
    clean_ocr "[F28AlWATUZI scientist" = "[F28A]WATUZI scientist" ∧
    parse_messages "[F28AlWATUZI scientist" =
      [{ alliance_tag := "F28A", player_name := "WATUZI",
         message := "scientist",
         raw_text := "[F28A]WATUZI scientist" }] := by
  constructor
  · rfl
  · rfl

/-! ## Idempotence of `_clean_ocr_text`

Stage-by-stage fixpoint argument over the cleaned text. -/

/-- No-match predicate of a bracket-repair scanner: the matcher fails at
the position following every `[` of the text. -/
def noMB (tryF : List Char → Option (List Char × List Char)) :
    List Char → Bool
  | [] => true
  | c :: rest =>
    (if c = '[' then (tryF rest).isNone else true) && noMB tryF rest

theorem noMB_cons {tryF : List Char → Option (List Char × List Char)}
    {c : Char} {rest : List Char} :
    noMB tryF (c :: rest) =
      ((if c = '[' then (tryF rest).isNone else true) &&
        noMB tryF rest) := rfl

theorem noMB_append_right {tryF : List Char → Option (List Char × List Char)}
    {u w : List Char} (h : noMB tryF (u ++ w) = true) :
    noMB tryF w = true := by
  induction u with
  | nil => exact h
  | cons c u ih =>
    rw [List.cons_append, noMB_cons, Bool.and_eq_true] at h
    exact ih h.2

theorem noMB_append_of_no_bracket
    {tryF : List Char → Option (List Char × List Char)} {u w : List Char}
    (hu : ∀ c ∈ u, c ≠ '[') (hw : noMB tryF w = true) :
    noMB tryF (u ++ w) = true := by
  induction u with
  | nil => exact hw
  | cons c u ih =>
    rw [List.cons_append, noMB_cons, Bool.and_eq_true]
    refine ⟨?_, ih fun d hd => hu d (List.mem_cons_of_mem _ hd)⟩
    rw [if_neg (hu c (List.mem_cons_self _ _))]

/-- Relation between a text and a bracket-repair rewrite of it:
characters are copied or substituted by `]`, and `]` may be inserted. -/
inductive SI : List Char → List Char → Prop
  | nil : SI [] []
  | copy (c : Char) {l z : List Char} : SI l z → SI (c :: l) (c :: z)
  | subst (c : Char) {l z : List Char} : SI l z → SI (c :: l) (']' :: z)
  | ins {l z : List Char} : SI l z → SI l (']' :: z)

theorem SI_refl (l : List Char) : SI l l := by
  induction l with
  | nil => exact SI.nil
  | cons c l ih => exact SI.copy c ih

theorem SI_append {a b c d : List Char} (h1 : SI a b) (h2 : SI c d) :
    SI (a ++ c) (b ++ d) := by
  induction h1 with
  | nil => exact h2
  | copy e _ ih => exact SI.copy e ih
  | subst e _ ih => exact SI.subst e ih
  | ins _ ih => exact SI.ins ih

/-- Relation between a text and its whitespace-collapsed rewrite:
non-space characters are copied; a non-empty whitespace run becomes a
single space. -/
inductive WC : List Char → List Char → Prop
  | nil : WC [] []
  | copy (c : Char) {l z : List Char} (hc : pyIsSpace c = false) :
      WC l z → WC (c :: l) (c :: z)
  | ws (c : Char) (run : List Char) {l z : List Char}
      (hc : pyIsSpace c = true) (hrun : ∀ d ∈ run, pyIsSpace d = true) :
      WC l z → WC (c :: (run ++ l)) (' ' :: z)

/-- The inversion interface shared by `SI` and `WC`, used to transport
matcher failures backwards along a rewrite. -/
structure RInv (R : List Char → List Char → Prop) : Prop where
  nil_inv : ∀ {a : List Char}, R a [] → a = []
  cons_ws : ∀ {a z : List Char} {c : Char}, R a (c :: z) →
    pyIsSpace c = true → ∃ c' a', a = c' :: a' ∧ pyIsSpace c' = true
  cons_tail : ∀ {a z : List Char} {c : Char}, R a (c :: z) →
    ∃ a₁ a₂, a = a₁ ++ a₂ ∧ R a₂ z ∧
      (pyIsSpace c = false → c ≠ ']' → a₁ = [c])

theorem RInv.cons_inv {R : List Char → List Char → Prop} (hR : RInv R)
    {a z : List Char} {c : Char} (h : R a (c :: z))
    (h1 : pyIsSpace c = false) (h2 : c ≠ ']') :
    ∃ a', a = c :: a' ∧ R a' z := by
  obtain ⟨a₁, a₂, rfl, hrel, hc⟩ := hR.cons_tail h
  exact ⟨a₂, by rw [hc h1 h2, List.singleton_append], hrel⟩

theorem SI_RInv : RInv SI := by
  constructor
  · intro a h
    cases h
    rfl
  · intro a z c h hws
    cases h with
    | copy _ h => exact ⟨c, _, rfl, hws⟩
    | subst e h =>
      exact absurd hws (by decide)
    | ins h =>
      exact absurd hws (by decide)
  · intro a z c h
    cases h with
    | copy _ h => exact ⟨[c], _, rfl, h, fun _ _ => rfl⟩
    | subst e h => exact ⟨[e], _, rfl, h, fun _ hc => absurd rfl hc⟩
    | ins h => exact ⟨[], _, rfl, h, fun _ hc => absurd rfl hc⟩

theorem WC_RInv : RInv WC := by
  constructor
  · intro a h
    cases h
    rfl
  · intro a z c h hws
    cases h with
    | copy _ hcc h => rw [hws] at hcc; exact Bool.noConfusion hcc
    | ws c' run hcc hrun h => exact ⟨c', _, rfl, hcc⟩
  · intro a z c h
    cases h with
    | copy _ hcc h => exact ⟨[c], _, rfl, h, fun _ _ => rfl⟩
    | ws c' run hcc hrun h =>
      exact ⟨c' :: run, _, rfl, h, fun hf _ => absurd hf (by decide)⟩

theorem RInv.noMB_transport {R : List Char → List Char → Prop}
    (hR : RInv R) {tryF : List Char → Option (List Char × List Char)}
    (hmono : ∀ {a b : List Char}, R a b → tryF a = none → tryF b = none)
    {l z : List Char} (h : R l z) (hn : noMB tryF l = true) :
    noMB tryF z = true := by
  induction z generalizing l with
  | nil => rfl
  | cons c z ih =>
    obtain ⟨a₁, a₂, rfl, h₂, hc1⟩ := hR.cons_tail h
    have hn₂ : noMB tryF a₂ = true := noMB_append_right hn
    rw [noMB_cons, Bool.and_eq_true]
    refine ⟨?_, ih h₂ hn₂⟩
    by_cases hcb : c = '['
    · subst hcb
      rw [hc1 (by decide) (by decide), List.singleton_append, noMB_cons,
        Bool.and_eq_true, if_pos rfl] at hn
      have ht : tryF a₂ = none := Option.isNone_iff_eq_none.mp hn.1
      rw [if_pos rfl, hmono h₂ ht]
      rfl
    · rw [if_neg hcb]

/-! Character-class facts used by the transport arguments. -/

theorem tag_facts {c : Char} (h : isTagChar c = true) :
    pyIsSpace c = false ∧ c ≠ '[' ∧ c ≠ ']' := by
  refine ⟨?_, ?_, ?_⟩
  · simp only [isTagChar, isCircled, Bool.or_eq_true, Bool.and_eq_true,
      decide_eq_true_eq] at h
    simp only [pyIsSpace, Bool.or_eq_true, Bool.and_eq_true,
      decide_eq_true_eq]
    simp only [Bool.or_eq_false_iff, Bool.and_eq_false_iff,
      decide_eq_false_iff_not, Bool.and_eq_true, decide_eq_true_eq]
    omega
  · intro hc; subst hc; exact absurd h (by decide)
  · intro hc; subst hc; exact absurd h (by decide)

theorem upper_facts {c : Char} (h : isUpperA c = true) :
    pyIsSpace c = false ∧ c ≠ ']' := by
  refine ⟨?_, ?_⟩
  · simp only [isUpperA, Bool.and_eq_true, decide_eq_true_eq] at h
    simp only [pyIsSpace, Bool.or_eq_false_iff, Bool.and_eq_false_iff,
      decide_eq_false_iff_not, Bool.and_eq_true, decide_eq_true_eq]
    omega
  · intro hc; subst hc; exact absurd h (by decide)

theorem letter_facts {c : Char} (h : isAsciiLetter c = true) :
    pyIsSpace c = false ∧ c ≠ '[' ∧ c ≠ ']' := by
  refine ⟨?_, ?_, ?_⟩
  · simp only [isAsciiLetter, Bool.or_eq_true, Bool.and_eq_true,
      decide_eq_true_eq] at h
    simp only [pyIsSpace, Bool.or_eq_false_iff, Bool.and_eq_false_iff,
      decide_eq_false_iff_not, Bool.and_eq_true, decide_eq_true_eq]
    omega
  · intro hc; subst hc; exact absurd h (by decide)
  · intro hc; subst hc; exact absurd h (by decide)

theorem ws_not_upper {c : Char} (h : pyIsSpace c = true) :
    isUpperA c = false := by
  simp only [pyIsSpace, Bool.or_eq_true, Bool.and_eq_true,
    decide_eq_true_eq] at h
  simp only [isUpperA, Bool.and_eq_false_iff, decide_eq_false_iff_not]
  omega

theorem ws_ne_rb {c : Char} (h : pyIsSpace c = true) : c ≠ ']' := by
  intro hc; subst hc; exact absurd h (by decide)

/-! Lookahead helpers. -/

theorem lookUpper_cases {w : List Char} (h : lookUpper w = true) :
    ∃ u w', w = u :: w' ∧ isUpperA u = true := by
  cases w with
  | nil => exact Bool.noConfusion h
  | cons u w' => exact ⟨u, w', rfl, h⟩

theorem look1b_cases {w : List Char} (h : look1b w = true) :
    ∃ u v x w', w = u :: v :: x :: w' ∧ isUpperA u = true ∧
      isUpperA v = true ∧ pyIsSpace x = true := by
  match w, h with
  | u :: v :: x :: w', h =>
    rw [show look1b (u :: v :: x :: w') =
      (isUpperA u && isUpperA v && pyIsSpace x) from rfl,
      Bool.and_eq_true, Bool.and_eq_true] at h
    exact ⟨u, v, x, w', rfl, h.1.1, h.1.2, h.2⟩

theorem lookNotRB_of_ne {c : Char} {w : List Char} (hc : c ≠ ']') :
    lookNotRB (c :: w) = true := by
  unfold lookNotRB
  split
  · next heq =>
    injection heq with h1 _
    exact absurd h1 hc
  · rfl

theorem lookNotRB_cons_ne {c : Char} {w : List Char}
    (h : lookNotRB (c :: w) = true) : c ≠ ']' := by
  intro hc
  subst hc
  exact Bool.noConfusion h

theorem lookNotRB_append_ws {r v : List Char}
    (hv : ∀ d ∈ v, pyIsSpace d = true) (h : lookNotRB r = true) :
    lookNotRB (r ++ v) = true := by
  cases r with
  | nil =>
    cases v with
    | nil => rfl
    | cons d v' =>
      exact lookNotRB_of_ne (ws_ne_rb (hv d (List.mem_cons_self _ _)))
  | cons x r' => exact lookNotRB_of_ne (lookNotRB_cons_ne h)

theorem RInv.lookNotRB_transport {R : List Char → List Char → Prop}
    (hR : RInv R) {a z : List Char} (h : R a z)
    (hz : lookNotRB z = true) : lookNotRB a = true := by
  cases z with
  | nil => rw [hR.nil_inv h]; rfl
  | cons c z =>
    have hcne : c ≠ ']' := lookNotRB_cons_ne hz
    by_cases hws : pyIsSpace c = true
    · obtain ⟨c', a', rfl, hw'⟩ := hR.cons_ws h hws
      exact lookNotRB_of_ne (ws_ne_rb hw')
    · obtain ⟨a', rfl, _⟩ :=
        hR.cons_inv h (by simpa using hws) hcne
      exact lookNotRB_of_ne hcne

/-! Shape of a successful `try1` match, and sufficient conditions for a
match; these drive both the monotonicity and the append-stability of the
first bracket repair. -/

theorem try1_shape {r : List Char} {p : List Char × List Char}
    (h : try1 r = some p) :
    (∃ a b c d u w, r = a :: b :: c :: d :: 'l' :: u :: w ∧
      p = ([a, b, c, d, ']'], u :: w) ∧
      isTagChar a = true ∧ isTagChar b = true ∧ isTagChar c = true ∧
      isTagChar d = true ∧ isUpperA u = true) ∨
    (∃ a b c u w, r = a :: b :: c :: 'l' :: u :: w ∧
      p = ([a, b, c, ']'], u :: w) ∧
      isTagChar a = true ∧ isTagChar b = true ∧ isTagChar c = true ∧
      isUpperA u = true) := by
  cases r with
  | nil => exact Option.noConfusion h
  | cons a r => cases r with
    | nil => exact Option.noConfusion h
    | cons b r => cases r with
      | nil => exact Option.noConfusion h
      | cons c r => cases r with
        | nil => exact Option.noConfusion h
        | cons d rest =>
          simp only [try1] at h
          split at h
          · next htags =>
            rw [Bool.and_eq_true, Bool.and_eq_true] at htags
            split at h
            · next htd =>
              split at h
              · next rest2 heq =>
                split at h
                · next hlk =>
                  obtain ⟨u, w, rfl, hu⟩ := lookUpper_cases hlk
                  exact Or.inl ⟨a, b, c, d, u, w, rfl,
                    (Option.some.injEq _ _).mp h.symm,
                    htags.1.1, htags.1.2, htags.2, htd, hu⟩
                · exact Option.noConfusion h
              · exact Option.noConfusion h
            · next htd =>
              split at h
              · next hdl =>
                split at h
                · next hlk =>
                  obtain ⟨u, w, rfl, hu⟩ := lookUpper_cases hlk
                  subst hdl
                  exact Or.inr ⟨a, b, c, u, w, rfl,
                    (Option.some.injEq _ _).mp h.symm,
                    htags.1.1, htags.1.2, htags.2, hu⟩
                · exact Option.noConfusion h
              · exact Option.noConfusion h
          · exact Option.noConfusion h

theorem try1_isSome4 {a b c d u : Char} {w : List Char}
    (ha : isTagChar a = true) (hb : isTagChar b = true)
    (hc : isTagChar c = true) (hd : isTagChar d = true)
    (hu : isUpperA u = true) :
    try1 (a :: b :: c :: d :: 'l' :: u :: w) ≠ none := by
  simp [try1, ha, hb, hc, hd, lookUpper, hu]

theorem try1_isSome3 {a b c u : Char} {w : List Char}
    (ha : isTagChar a = true) (hb : isTagChar b = true)
    (hc : isTagChar c = true) (hu : isUpperA u = true) :
    try1 (a :: b :: c :: 'l' :: u :: w) ≠ none := by
  simp [try1, ha, hb, hc, show isTagChar 'l' = false from by decide,
    lookUpper, hu]

/-! Shape and match conditions for `try1b` (the `J` repair). -/

theorem fall1b_shape {a b c d : Char} {rest : List Char}
    {p : List Char × List Char} (h : fall1b a b c d rest = some p) :
    d = 'J' ∧ p = ([a, b, c, ']'], rest) ∧
      ∃ u v x w, rest = u :: v :: x :: w ∧ isUpperA u = true ∧
        isUpperA v = true ∧ pyIsSpace x = true := by
  unfold fall1b at h
  split at h
  · next hcond =>
    rw [Bool.and_eq_true, decide_eq_true_eq] at hcond
    exact ⟨hcond.1, (Option.some.injEq _ _).mp h.symm,
      look1b_cases hcond.2⟩
  · exact Option.noConfusion h

theorem try1b_shape {r : List Char} {p : List Char × List Char}
    (h : try1b r = some p) :
    (∃ a b c d u v x w, r = a :: b :: c :: d :: 'J' :: u :: v :: x :: w ∧
      p = ([a, b, c, d, ']'], u :: v :: x :: w) ∧
      isTagChar a = true ∧ isTagChar b = true ∧ isTagChar c = true ∧
      isTagChar d = true ∧ isUpperA u = true ∧ isUpperA v = true ∧
      pyIsSpace x = true) ∨
    (∃ a b c u v x w, r = a :: b :: c :: 'J' :: u :: v :: x :: w ∧
      p = ([a, b, c, ']'], u :: v :: x :: w) ∧
      isTagChar a = true ∧ isTagChar b = true ∧ isTagChar c = true ∧
      isUpperA u = true ∧ isUpperA v = true ∧ pyIsSpace x = true) := by
  cases r with
  | nil => exact Option.noConfusion h
  | cons a r => cases r with
    | nil => exact Option.noConfusion h
    | cons b r => cases r with
      | nil => exact Option.noConfusion h
      | cons c r => cases r with
        | nil => exact Option.noConfusion h
        | cons d rest =>
          simp only [try1b] at h
          split at h
          · next htags =>
            rw [Bool.and_eq_true, Bool.and_eq_true] at htags
            split at h
            · next htd =>
              split at h
              · next rest2 heq =>
                split at h
                · next hlk =>
                  obtain ⟨u, v, x, w, rfl, hu, hv, hx⟩ := look1b_cases hlk
                  exact Or.inl ⟨a, b, c, d, u, v, x, w, rfl,
                    (Option.some.injEq _ _).mp h.symm,
                    htags.1.1, htags.1.2, htags.2, htd, hu, hv, hx⟩
                · obtain ⟨hdJ, hp, u, v, x, w, heq2, hu, hv, hx⟩ :=
                    fall1b_shape h
                  subst hdJ
                  exact Or.inr ⟨a, b, c, u, v, x, w, by rw [heq2], by
                    rw [hp, heq2], htags.1.1, htags.1.2, htags.2,
                    hu, hv, hx⟩
              · obtain ⟨hdJ, hp, u, v, x, w, heq2, hu, hv, hx⟩ :=
                  fall1b_shape h
                subst hdJ
                exact Or.inr ⟨a, b, c, u, v, x, w, by rw [heq2], by
                  rw [hp, heq2], htags.1.1, htags.1.2, htags.2,
                  hu, hv, hx⟩
            · next htd =>
              obtain ⟨hdJ, hp, u, v, x, w, heq2, hu, hv, hx⟩ :=
                fall1b_shape h
              subst hdJ
              exact absurd (by decide : isTagChar 'J' = true) htd
          · exact Option.noConfusion h

theorem try1b_isSome4 {a b c d u v x : Char} {w : List Char}
    (ha : isTagChar a = true) (hb : isTagChar b = true)
    (hc : isTagChar c = true) (hd : isTagChar d = true)
    (hu : isUpperA u = true) (hv : isUpperA v = true)
    (hx : pyIsSpace x = true) :
    try1b (a :: b :: c :: d :: 'J' :: u :: v :: x :: w) ≠ none := by
  simp [try1b, ha, hb, hc, hd, look1b, hu, hv, hx]

theorem try1b_isSome3 {a b c u v x : Char} {w : List Char}
    (ha : isTagChar a = true) (hb : isTagChar b = true)
    (hc : isTagChar c = true) (hu : isUpperA u = true)
    (hv : isUpperA v = true) (hx : pyIsSpace x = true) :
    try1b (a :: b :: c :: 'J' :: u :: v :: x :: w) ≠ none := by
  by_cases huJ : u = 'J'
  · subst huJ
    have hlk : look1b (v :: x :: w) = false := by
      cases w with
      | nil => rfl
      | cons w0 w' => simp [look1b, ws_not_upper hx]
    have hlk2 : look1b ('J' :: v :: x :: w) = true := by
      simp [look1b, show isUpperA 'J' = true from by decide, hv, hx]
    simp [try1b, ha, hb, hc, show isTagChar 'J' = true from by decide,
      hlk, fall1b, hlk2]
  · simp only [try1b]
    rw [if_pos (by rw [ha, hb, hc]; rfl),
      if_pos (show isTagChar 'J' = true from by decide)]
    split
    · next rest2 heq =>
      injection heq with h1 _
      exact absurd h1 huJ
    · simp [fall1b, look1b, hu, hv, hx]

/-! Shape and match conditions for `try2` (the general repair). -/

theorem fall2_shape {a b c d : Char} {rest : List Char}
    {p : List Char × List Char} (h : fall2 a b c d rest = some p) :
    isAsciiLetter d = true ∧ lookNotRB rest = true ∧
      p = ([a, b, c, ']', d], rest) := by
  unfold fall2 at h
  split at h
  · next hcond =>
    rw [Bool.and_eq_true] at hcond
    exact ⟨hcond.1, hcond.2, (Option.some.injEq _ _).mp h.symm⟩
  · exact Option.noConfusion h

theorem try2_shape {r : List Char} {p : List Char × List Char}
    (h : try2 r = some p) :
    (∃ a b c d e r2, r = a :: b :: c :: d :: e :: r2 ∧
      p = ([a, b, c, d, ']', e], r2) ∧
      isTagChar a = true ∧ isTagChar b = true ∧ isTagChar c = true ∧
      isTagChar d = true ∧ isAsciiLetter e = true ∧
      lookNotRB r2 = true) ∨
    (∃ a b c d r2, r = a :: b :: c :: d :: r2 ∧
      p = ([a, b, c, ']', d], r2) ∧
      isTagChar a = true ∧ isTagChar b = true ∧ isTagChar c = true ∧
      isAsciiLetter d = true ∧ lookNotRB r2 = true) := by
  cases r with
  | nil => exact Option.noConfusion h
  | cons a r => cases r with
    | nil => exact Option.noConfusion h
    | cons b r => cases r with
      | nil => exact Option.noConfusion h
      | cons c r => cases r with
        | nil => exact Option.noConfusion h
        | cons d rest =>
          simp only [try2] at h
          split at h
          · next htags =>
            rw [Bool.and_eq_true, Bool.and_eq_true] at htags
            split at h
            · next htd =>
              split at h
              · next e rest2 =>
                split at h
                · next hcond =>
                  rw [Bool.and_eq_true] at hcond
                  exact Or.inl ⟨a, b, c, d, e, rest2, rfl,
                    (Option.some.injEq _ _).mp h.symm,
                    htags.1.1, htags.1.2, htags.2, htd,
                    hcond.1, hcond.2⟩
                · obtain ⟨hdlet, hlnr, hp⟩ := fall2_shape h
                  exact Or.inr ⟨a, b, c, d, e :: rest2, rfl, hp,
                    htags.1.1, htags.1.2, htags.2, hdlet, hlnr⟩
              · obtain ⟨hdlet, hlnr, hp⟩ := fall2_shape h
                exact Or.inr ⟨a, b, c, d, [], rfl, hp,
                  htags.1.1, htags.1.2, htags.2, hdlet, hlnr⟩
            · next htd =>
              obtain ⟨hdlet, hlnr, hp⟩ := fall2_shape h
              exact Or.inr ⟨a, b, c, d, rest, rfl, hp,
                htags.1.1, htags.1.2, htags.2, hdlet, hlnr⟩
          · exact Option.noConfusion h

theorem try2_isSomeA {a b c d e : Char} {r2 : List Char}
    (ha : isTagChar a = true) (hb : isTagChar b = true)
    (hc : isTagChar c = true) (hd : isTagChar d = true)
    (he : isAsciiLetter e = true) (hr : lookNotRB r2 = true) :
    try2 (a :: b :: c :: d :: e :: r2) ≠ none := by
  simp [try2, ha, hb, hc, hd, he, hr]

theorem try2_isSomeB {a b c d : Char} {r2 : List Char}
    (ha : isTagChar a = true) (hb : isTagChar b = true)
    (hc : isTagChar c = true) (hd : isAsciiLetter d = true)
    (hr : lookNotRB r2 = true) :
    try2 (a :: b :: c :: d :: r2) ≠ none := by
  by_cases htd : isTagChar d = true
  · cases r2 with
    | nil => simp [try2, ha, hb, hc, htd, fall2, hd, hr]
    | cons f t =>
      simp only [try2]
      rw [if_pos (by rw [ha, hb, hc]; rfl), if_pos htd]
      by_cases hft : (isAsciiLetter f && lookNotRB t) = true
      · rw [if_pos hft]
        exact Option.noConfusion
      · rw [if_neg hft]
        simp [fall2, hd, hr]
  · simp only [try2]
    rw [if_pos (by rw [ha, hb, hc]; rfl), if_neg htd]
    simp [fall2, hd, hr]

/-! Monotonicity: a rewrite that substitutes characters by `]`, inserts
`]`, or collapses whitespace runs to a space can never create a match of
any of the three repair regexes. -/

theorem try1_mono {R : List Char → List Char → Prop} (hR : RInv R)
    {a b : List Char} (h : R a b) (ha : try1 a = none) :
    try1 b = none := by
  cases hb : try1 b with
  | none => rfl
  | some p =>
    exfalso
    rcases try1_shape hb with
      ⟨x1, x2, x3, x4, u, w, rfl, _, h1, h2, h3, h4, hu⟩ |
      ⟨x1, x2, x3, u, w, rfl, _, h1, h2, h3, hu⟩
    · obtain ⟨a1, rfl, hr1⟩ := hR.cons_inv h (tag_facts h1).1 (tag_facts h1).2.2
      obtain ⟨a2, rfl, hr2⟩ := hR.cons_inv hr1 (tag_facts h2).1 (tag_facts h2).2.2
      obtain ⟨a3, rfl, hr3⟩ := hR.cons_inv hr2 (tag_facts h3).1 (tag_facts h3).2.2
      obtain ⟨a4, rfl, hr4⟩ := hR.cons_inv hr3 (tag_facts h4).1 (tag_facts h4).2.2
      obtain ⟨a5, rfl, hr5⟩ := hR.cons_inv hr4 (by decide) (by decide)
      obtain ⟨a6, rfl, hr6⟩ := hR.cons_inv hr5 (upper_facts hu).1 (upper_facts hu).2
      exact try1_isSome4 h1 h2 h3 h4 hu ha
    · obtain ⟨a1, rfl, hr1⟩ := hR.cons_inv h (tag_facts h1).1 (tag_facts h1).2.2
      obtain ⟨a2, rfl, hr2⟩ := hR.cons_inv hr1 (tag_facts h2).1 (tag_facts h2).2.2
      obtain ⟨a3, rfl, hr3⟩ := hR.cons_inv hr2 (tag_facts h3).1 (tag_facts h3).2.2
      obtain ⟨a4, rfl, hr4⟩ := hR.cons_inv hr3 (by decide) (by decide)
      obtain ⟨a5, rfl, hr5⟩ := hR.cons_inv hr4 (upper_facts hu).1 (upper_facts hu).2
      exact try1_isSome3 h1 h2 h3 hu ha

theorem try1b_mono {R : List Char → List Char → Prop} (hR : RInv R)
    {a b : List Char} (h : R a b) (ha : try1b a = none) :
    try1b b = none := by
  cases hb : try1b b with
  | none => rfl
  | some p =>
    exfalso
    rcases try1b_shape hb with
      ⟨x1, x2, x3, x4, u, v, x, w, rfl, _, h1, h2, h3, h4, hu, hv, hx⟩ |
      ⟨x1, x2, x3, u, v, x, w, rfl, _, h1, h2, h3, hu, hv, hx⟩
    · obtain ⟨a1, rfl, hr1⟩ := hR.cons_inv h (tag_facts h1).1 (tag_facts h1).2.2
      obtain ⟨a2, rfl, hr2⟩ := hR.cons_inv hr1 (tag_facts h2).1 (tag_facts h2).2.2
      obtain ⟨a3, rfl, hr3⟩ := hR.cons_inv hr2 (tag_facts h3).1 (tag_facts h3).2.2
      obtain ⟨a4, rfl, hr4⟩ := hR.cons_inv hr3 (tag_facts h4).1 (tag_facts h4).2.2
      obtain ⟨a5, rfl, hr5⟩ := hR.cons_inv hr4 (by decide) (by decide)
      obtain ⟨a6, rfl, hr6⟩ := hR.cons_inv hr5 (upper_facts hu).1 (upper_facts hu).2
      obtain ⟨a7, rfl, hr7⟩ := hR.cons_inv hr6 (upper_facts hv).1 (upper_facts hv).2
      obtain ⟨x', a8, rfl, hx'⟩ := hR.cons_ws hr7 hx
      exact try1b_isSome4 h1 h2 h3 h4 hu hv hx' ha
    · obtain ⟨a1, rfl, hr1⟩ := hR.cons_inv h (tag_facts h1).1 (tag_facts h1).2.2
      obtain ⟨a2, rfl, hr2⟩ := hR.cons_inv hr1 (tag_facts h2).1 (tag_facts h2).2.2
      obtain ⟨a3, rfl, hr3⟩ := hR.cons_inv hr2 (tag_facts h3).1 (tag_facts h3).2.2
      obtain ⟨a4, rfl, hr4⟩ := hR.cons_inv hr3 (by decide) (by decide)
      obtain ⟨a5, rfl, hr5⟩ := hR.cons_inv hr4 (upper_facts hu).1 (upper_facts hu).2
      obtain ⟨a6, rfl, hr6⟩ := hR.cons_inv hr5 (upper_facts hv).1 (upper_facts hv).2
      obtain ⟨x', a7, rfl, hx'⟩ := hR.cons_ws hr6 hx
      exact try1b_isSome3 h1 h2 h3 hu hv hx' ha

theorem try2_mono {R : List Char → List Char → Prop} (hR : RInv R)
    {a b : List Char} (h : R a b) (ha : try2 a = none) :
    try2 b = none := by
  cases hb : try2 b with
  | none => rfl
  | some p =>
    exfalso
    rcases try2_shape hb with
      ⟨x1, x2, x3, x4, e, r2, rfl, _, h1, h2, h3, h4, he, hr⟩ |
      ⟨x1, x2, x3, x4, r2, rfl, _, h1, h2, h3, h4, hr⟩
    · obtain ⟨a1, rfl, hr1⟩ := hR.cons_inv h (tag_facts h1).1 (tag_facts h1).2.2
      obtain ⟨a2, rfl, hr2⟩ := hR.cons_inv hr1 (tag_facts h2).1 (tag_facts h2).2.2
      obtain ⟨a3, rfl, hr3⟩ := hR.cons_inv hr2 (tag_facts h3).1 (tag_facts h3).2.2
      obtain ⟨a4, rfl, hr4⟩ := hR.cons_inv hr3 (tag_facts h4).1 (tag_facts h4).2.2
      obtain ⟨a5, rfl, hr5⟩ := hR.cons_inv hr4 (letter_facts he).1 (letter_facts he).2.2
      exact try2_isSomeA h1 h2 h3 h4 he (hR.lookNotRB_transport hr5 hr) ha
    · obtain ⟨a1, rfl, hr1⟩ := hR.cons_inv h (tag_facts h1).1 (tag_facts h1).2.2
      obtain ⟨a2, rfl, hr2⟩ := hR.cons_inv hr1 (tag_facts h2).1 (tag_facts h2).2.2
      obtain ⟨a3, rfl, hr3⟩ := hR.cons_inv hr2 (tag_facts h3).1 (tag_facts h3).2.2
      obtain ⟨a4, rfl, hr4⟩ := hR.cons_inv hr3 (letter_facts h4).1 (letter_facts h4).2.2
      exact try2_isSomeB h1 h2 h3 h4 (hR.lookNotRB_transport hr4 hr) ha

/-! Append-stability: a match survives appending trailing whitespace
(needed because `strip` removes a whitespace suffix). -/

theorem try1_app {b : List Char} {p : List Char × List Char}
    {v : List Char} (hb : try1 b = some p)
    (_hv : ∀ d ∈ v, pyIsSpace d = true) : try1 (b ++ v) ≠ none := by
  rcases try1_shape hb with
    ⟨x1, x2, x3, x4, u, w, rfl, _, h1, h2, h3, h4, hu⟩ |
    ⟨x1, x2, x3, u, w, rfl, _, h1, h2, h3, hu⟩
  · exact try1_isSome4 h1 h2 h3 h4 hu
  · exact try1_isSome3 h1 h2 h3 hu

theorem try1b_app {b : List Char} {p : List Char × List Char}
    {v : List Char} (hb : try1b b = some p)
    (_hv : ∀ d ∈ v, pyIsSpace d = true) : try1b (b ++ v) ≠ none := by
  rcases try1b_shape hb with
    ⟨x1, x2, x3, x4, u, v', x, w, rfl, _, h1, h2, h3, h4, hu, hv', hx⟩ |
    ⟨x1, x2, x3, u, v', x, w, rfl, _, h1, h2, h3, hu, hv', hx⟩
  · exact try1b_isSome4 h1 h2 h3 h4 hu hv' hx
  · exact try1b_isSome3 h1 h2 h3 hu hv' hx

theorem try2_app {b : List Char} {p : List Char × List Char}
    {v : List Char} (hb : try2 b = some p)
    (hv : ∀ d ∈ v, pyIsSpace d = true) : try2 (b ++ v) ≠ none := by
  rcases try2_shape hb with
    ⟨x1, x2, x3, x4, e, r2, rfl, _, h1, h2, h3, h4, he, hr⟩ |
    ⟨x1, x2, x3, x4, r2, rfl, _, h1, h2, h3, h4, hr⟩
  · exact try2_isSomeA h1 h2 h3 h4 he (lookNotRB_append_ws hv hr)
  · exact try2_isSomeB h1 h2 h3 h4 (lookNotRB_append_ws hv hr)

/-! Scanner specification: a match consumes a prefix that the output
rewrites (`SI`), the output contains no `[`, and the matcher fails on
its own output. -/

theorem try1_spec {r out rest2 : List Char}
    (h : try1 r = some (out, rest2)) :
    (∃ cons, r = cons ++ rest2 ∧ SI cons out) ∧
      (∀ c ∈ out, c ≠ '[') ∧ ∀ w, try1 (out ++ w) = none := by
  rcases try1_shape h with
    ⟨a, b, c, d, u, w, rfl, hp, h1, h2, h3, h4, hu⟩ |
    ⟨a, b, c, u, w, rfl, hp, h1, h2, h3, hu⟩ <;>
    rw [Prod.mk.injEq] at hp <;> obtain ⟨rfl, rfl⟩ := hp
  · refine ⟨⟨[a, b, c, d, 'l'], rfl, ?_⟩, ?_, ?_⟩
    · exact SI.copy a (SI.copy b (SI.copy c (SI.copy d (SI.subst 'l' SI.nil))))
    · intro e he
      simp only [List.mem_cons, List.mem_singleton, List.not_mem_nil] at he
      rcases he with rfl | rfl | rfl | rfl | rfl | hf
      · exact (tag_facts h1).2.1
      · exact (tag_facts h2).2.1
      · exact (tag_facts h3).2.1
      · exact (tag_facts h4).2.1
      · decide
      · exact absurd hf (by simp)
    · intro w'
      simp [try1, h1, h2, h3, h4]
  · refine ⟨⟨[a, b, c, 'l'], rfl, ?_⟩, ?_, ?_⟩
    · exact SI.copy a (SI.copy b (SI.copy c (SI.subst 'l' SI.nil)))
    · intro e he
      simp only [List.mem_cons, List.mem_singleton, List.not_mem_nil] at he
      rcases he with rfl | rfl | rfl | rfl | hf
      · exact (tag_facts h1).2.1
      · exact (tag_facts h2).2.1
      · exact (tag_facts h3).2.1
      · decide
      · exact absurd hf (by simp)
    · intro w'
      simp [try1, h1, h2, h3, show isTagChar ']' = false from by decide]

theorem try1b_spec {r out rest2 : List Char}
    (h : try1b r = some (out, rest2)) :
    (∃ cons, r = cons ++ rest2 ∧ SI cons out) ∧
      (∀ c ∈ out, c ≠ '[') ∧ ∀ w, try1b (out ++ w) = none := by
  have look1b_rb : ∀ w : List Char, look1b (']' :: w) = false := by
    intro w
    cases w with
    | nil => rfl
    | cons w0 w' =>
      cases w' with
      | nil => rfl
      | cons w1 w'' => simp [look1b, show isUpperA ']' = false from by decide]
  rcases try1b_shape h with
    ⟨a, b, c, d, u, v, x, w, rfl, hp, h1, h2, h3, h4, hu, hv, hx⟩ |
    ⟨a, b, c, u, v, x, w, rfl, hp, h1, h2, h3, hu, hv, hx⟩ <;>
    rw [Prod.mk.injEq] at hp <;> obtain ⟨rfl, rfl⟩ := hp
  · refine ⟨⟨[a, b, c, d, 'J'], rfl, ?_⟩, ?_, ?_⟩
    · exact SI.copy a (SI.copy b (SI.copy c (SI.copy d (SI.subst 'J' SI.nil))))
    · intro e he
      simp only [List.mem_cons, List.mem_singleton, List.not_mem_nil] at he
      rcases he with rfl | rfl | rfl | rfl | rfl | hf
      · exact (tag_facts h1).2.1
      · exact (tag_facts h2).2.1
      · exact (tag_facts h3).2.1
      · exact (tag_facts h4).2.1
      · decide
      · exact absurd hf (by simp)
    · intro w'
      simp [try1b, h1, h2, h3, h4, fall1b, look1b_rb]
  · refine ⟨⟨[a, b, c, 'J'], rfl, ?_⟩, ?_, ?_⟩
    · exact SI.copy a (SI.copy b (SI.copy c (SI.subst 'J' SI.nil)))
    · intro e he
      simp only [List.mem_cons, List.mem_singleton, List.not_mem_nil] at he
      rcases he with rfl | rfl | rfl | rfl | hf
      · exact (tag_facts h1).2.1
      · exact (tag_facts h2).2.1
      · exact (tag_facts h3).2.1
      · decide
      · exact absurd hf (by simp)
    · intro w'
      simp [try1b, h1, h2, h3, show isTagChar ']' = false from by decide,
        fall1b, show (']' = 'J') = False from by simp]

theorem try2_spec {r out rest2 : List Char}
    (h : try2 r = some (out, rest2)) :
    (∃ cons, r = cons ++ rest2 ∧ SI cons out) ∧
      (∀ c ∈ out, c ≠ '[') ∧ ∀ w, try2 (out ++ w) = none := by
  rcases try2_shape h with
    ⟨a, b, c, d, e, r2, rfl, hp, h1, h2, h3, h4, he, hr⟩ |
    ⟨a, b, c, d, r2, rfl, hp, h1, h2, h3, h4, hr⟩ <;>
    rw [Prod.mk.injEq] at hp <;> obtain ⟨rfl, rfl⟩ := hp
  · refine ⟨⟨[a, b, c, d, e], rfl, ?_⟩, ?_, ?_⟩
    · exact SI.copy a (SI.copy b (SI.copy c (SI.copy d
        (SI.ins (SI.copy e SI.nil)))))
    · intro f hf
      simp only [List.mem_cons, List.mem_singleton, List.not_mem_nil] at hf
      rcases hf with rfl | rfl | rfl | rfl | rfl | rfl | hff
      · exact (tag_facts h1).2.1
      · exact (tag_facts h2).2.1
      · exact (tag_facts h3).2.1
      · exact (tag_facts h4).2.1
      · decide
      · exact (letter_facts he).2.1
      · exact absurd hff (by simp)
    · intro w'
      simp [try2, h1, h2, h3, h4,
        show isAsciiLetter ']' = false from by decide, fall2, lookNotRB]
  · refine ⟨⟨[a, b, c, d], rfl, ?_⟩, ?_, ?_⟩
    · exact SI.copy a (SI.copy b (SI.copy c (SI.ins (SI.copy d SI.nil))))
    · intro f hf
      simp only [List.mem_cons, List.mem_singleton, List.not_mem_nil] at hf
      rcases hf with rfl | rfl | rfl | rfl | rfl | hff
      · exact (tag_facts h1).2.1
      · exact (tag_facts h2).2.1
      · exact (tag_facts h3).2.1
      · decide
      · exact (letter_facts h4).2.1
      · exact absurd hff (by simp)
    · intro w'
      simp [try2, h1, h2, h3, show isTagChar ']' = false from by decide,
        fall2, show isAsciiLetter ']' = false from by decide]

/-! Scanner-level lemmas. -/

/-- The scanner output is an `SI`-rewrite of its input. -/
theorem SI_runSub {tryF : List Char → Option (List Char × List Char)}
    (hcons : ∀ {r out rest2 : List Char}, tryF r = some (out, rest2) →
      ∃ cons, r = cons ++ rest2 ∧ SI cons out) :
    ∀ (fuel : ℕ) (l : List Char), SI l (runSub tryF fuel l) := by
  intro fuel
  induction fuel with
  | zero =>
    intro l
    cases l with
    | nil => exact SI.nil
    | cons c rest => exact SI_refl _
  | succ fuel ih =>
    intro l
    cases l with
    | nil => exact SI.nil
    | cons c rest =>
      show SI (c :: rest) (runSub tryF (fuel + 1) (c :: rest))
      by_cases hc : c = '['
      · subst hc
        cases htry : tryF rest with
        | none =>
          simp only [runSub, htry, eq_self_iff_true, if_true]
          exact SI.copy '[' (ih rest)
        | some p =>
          obtain ⟨out, rest2⟩ := p
          obtain ⟨cons, hr, hsi⟩ := hcons htry
          simp only [runSub, htry, eq_self_iff_true, if_true]
          rw [hr]
          exact SI.copy '[' (SI_append hsi (ih rest2))
      · simp only [runSub, if_neg hc]
        exact SI.copy c (ih rest)

/-- With enough fuel, the scanner output contains no match of its own
matcher. -/
theorem noMB_runSub {tryF : List Char → Option (List Char × List Char)}
    (hlen : ∀ {r : List Char} {p : List Char × List Char},
      tryF r = some p → p.2.length < r.length)
    (hspec : ∀ {r out rest2 : List Char}, tryF r = some (out, rest2) →
      (∃ cons, r = cons ++ rest2 ∧ SI cons out) ∧
        (∀ c ∈ out, c ≠ '[') ∧ ∀ w, tryF (out ++ w) = none)
    (hmono : ∀ {a b : List Char}, SI a b → tryF a = none →
      tryF b = none) :
    ∀ (fuel : ℕ) (l : List Char), l.length ≤ fuel →
      noMB tryF (runSub tryF fuel l) = true := by
  intro fuel
  induction fuel with
  | zero =>
    intro l hl
    have : l = [] := List.length_eq_zero.mp (Nat.le_zero.mp hl)
    subst this
    rfl
  | succ fuel ih =>
    intro l hl
    cases l with
    | nil => rfl
    | cons c rest =>
      have hrest : rest.length ≤ fuel := by
        simp only [List.length_cons] at hl
        omega
      by_cases hc : c = '['
      · subst hc
        cases htry : tryF rest with
        | none =>
          simp only [runSub, htry, eq_self_iff_true, if_true]
          rw [noMB_cons, Bool.and_eq_true]
          refine ⟨?_, ih rest hrest⟩
          rw [if_pos rfl,
            hmono (SI_runSub (fun ht => (hspec ht).1) fuel rest) htry]
          rfl
        | some p =>
          obtain ⟨out, rest2⟩ := p
          obtain ⟨_, hbr, haft⟩ := hspec htry
          have hr2 : rest2.length ≤ fuel := by
            have hlt := hlen htry
            simp only [List.length_cons] at hl hlt
            omega
          simp only [runSub, htry, eq_self_iff_true, if_true]
          rw [noMB_cons, Bool.and_eq_true]
          constructor
          · rw [if_pos rfl, haft (runSub tryF fuel rest2)]
            rfl
          · exact noMB_append_of_no_bracket hbr (ih rest2 hr2)
      · simp only [runSub, if_neg hc]
        rw [noMB_cons, Bool.and_eq_true]
        exact ⟨by rw [if_neg hc], ih rest hrest⟩

/-- On a text with no match the scanner is the identity (any fuel). -/
theorem runSub_id {tryF : List Char → Option (List Char × List Char)}
    {l : List Char} (h : noMB tryF l = true) :
    ∀ fuel, runSub tryF fuel l = l := by
  induction l with
  | nil => intro fuel; cases fuel <;> rfl
  | cons c rest ih =>
    intro fuel
    cases fuel with
    | zero => rfl
    | succ fuel =>
      rw [noMB_cons, Bool.and_eq_true] at h
      by_cases hc : c = '['
      · subst hc
        have htry : tryF rest = none := by
          have h1 := h.1
          rw [if_pos rfl] at h1
          exact Option.isNone_iff_eq_none.mp h1
        simp only [runSub, htry, eq_self_iff_true, if_true]
        rw [ih h.2 fuel]
      · simp only [runSub, if_neg hc]
        rw [ih h.2 fuel]

/-- Trailing whitespace can be removed without creating a match. -/
theorem noMB_append_left
    {tryF : List Char → Option (List Char × List Char)}
    (happ : ∀ {b : List Char} {p : List Char × List Char}
      {v : List Char}, tryF b = some p →
      (∀ d ∈ v, pyIsSpace d = true) → tryF (b ++ v) ≠ none)
    {z v : List Char} (hv : ∀ d ∈ v, pyIsSpace d = true)
    (h : noMB tryF (z ++ v) = true) : noMB tryF z = true := by
  induction z with
  | nil => rfl
  | cons c z ih =>
    rw [List.cons_append, noMB_cons, Bool.and_eq_true] at h
    rw [noMB_cons, Bool.and_eq_true]
    refine ⟨?_, ih h.2⟩
    by_cases hc : c = '['
    · subst hc
      rw [if_pos rfl]
      have h1 := h.1
      rw [if_pos rfl] at h1
      have hzv : tryF (z ++ v) = none := Option.isNone_iff_eq_none.mp h1
      cases hz : tryF z with
      | none => rfl
      | some p => exact absurd hzv (happ hz hv)
    · rw [if_neg hc]

/-- `strip` decomposition: a list is a whitespace prefix, its stripped
core, and a whitespace suffix. -/
theorem strip_decomp (l : List Char) :
    ∃ u v, l = u ++ pyStripList l ++ v ∧
      (∀ d ∈ u, pyIsSpace d = true) ∧ ∀ d ∈ v, pyIsSpace d = true := by
  have h1 : List.takeWhile pyIsSpace l ++ List.dropWhile pyIsSpace l = l :=
    List.takeWhile_append_dropWhile pyIsSpace l
  have h2 : List.takeWhile pyIsSpace (List.dropWhile pyIsSpace l).reverse ++
      List.dropWhile pyIsSpace (List.dropWhile pyIsSpace l).reverse =
      (List.dropWhile pyIsSpace l).reverse :=
    List.takeWhile_append_dropWhile pyIsSpace
      (List.dropWhile pyIsSpace l).reverse
  have h3 : List.dropWhile pyIsSpace l = pyStripList l ++
      (List.takeWhile pyIsSpace
        (List.dropWhile pyIsSpace l).reverse).reverse := by
    have h4 := congrArg List.reverse h2
    rw [List.reverse_append, List.reverse_reverse] at h4
    exact h4.symm
  refine ⟨List.takeWhile pyIsSpace l,
    (List.takeWhile pyIsSpace
      (List.dropWhile pyIsSpace l).reverse).reverse, ?_, ?_, ?_⟩
  · conv_lhs => rw [← h1, h3]
    rw [List.append_assoc]
  · intro d hd
    exact List.mem_takeWhile_imp hd
  · intro d hd
    rw [List.mem_reverse] at hd
    exact List.mem_takeWhile_imp hd

/-- Stripping preserves no-match. -/
theorem noMB_strip {tryF : List Char → Option (List Char × List Char)}
    (happ : ∀ {b : List Char} {p : List Char × List Char}
      {v : List Char}, tryF b = some p →
      (∀ d ∈ v, pyIsSpace d = true) → tryF (b ++ v) ≠ none)
    {l : List Char} (h : noMB tryF l = true) :
    noMB tryF (pyStripList l) = true := by
  obtain ⟨u, v, hl, hu, hv⟩ := strip_decomp l
  rw [hl, List.append_assoc] at h
  exact noMB_append_left happ hv (noMB_append_right h)

/-! Whitespace-normal texts: every whitespace character is a single
space followed by a non-space (or the end). On such texts the collapse
pass is the identity. -/

/-- The head is not whitespace (or the list is empty). -/
def headNonWs : List Char → Bool
  | [] => true
  | c :: _ => !pyIsSpace c

/-- Whitespace-normal form. -/
def normWsB : List Char → Bool
  | [] => true
  | c :: rest =>
    (if pyIsSpace c then decide (c = ' ') && headNonWs rest else true) &&
      normWsB rest

theorem normWsB_cons {c : Char} {rest : List Char} :
    normWsB (c :: rest) =
      ((if pyIsSpace c then decide (c = ' ') && headNonWs rest
        else true) && normWsB rest) := rfl

theorem normWsB_tail {c : Char} {rest : List Char}
    (h : normWsB (c :: rest) = true) : normWsB rest = true := by
  rw [normWsB_cons, Bool.and_eq_true] at h
  exact h.2

theorem normWsB_suffix {u w : List Char}
    (h : normWsB (u ++ w) = true) : normWsB w = true := by
  induction u with
  | nil => exact h
  | cons c u ih =>
    rw [List.cons_append] at h
    exact ih (normWsB_tail h)

theorem normWsB_append_left {z v : List Char}
    (h : normWsB (z ++ v) = true) : normWsB z = true := by
  induction z with
  | nil => rfl
  | cons c z ih =>
    rw [List.cons_append] at h
    rw [normWsB_cons, Bool.and_eq_true]
    refine ⟨?_, ih (normWsB_tail h)⟩
    rw [normWsB_cons, Bool.and_eq_true] at h
    have h1 := h.1
    by_cases hws : pyIsSpace c = true
    · rw [if_pos hws] at h1 ⊢
      rw [Bool.and_eq_true] at h1
      rw [Bool.and_eq_true]
      refine ⟨h1.1, ?_⟩
      cases z with
      | nil => rfl
      | cons d z' =>
        rw [List.cons_append] at h1
        exact h1.2
    · rw [if_neg hws]

theorem dropWhile_eq_self_of_headNonWs {l : List Char}
    (h : headNonWs l = true) : l.dropWhile pyIsSpace = l := by
  cases l with
  | nil => rfl
  | cons c rest =>
    have hc : pyIsSpace c = false := by
      rw [show headNonWs (c :: rest) = !pyIsSpace c from rfl,
        Bool.not_eq_true'] at h
      exact h
    rw [List.dropWhile_cons_of_neg (by rw [hc]; exact Bool.noConfusion)]

theorem headNonWs_dropWhile (l : List Char) :
    headNonWs (l.dropWhile pyIsSpace) = true := by
  induction l with
  | nil => rfl
  | cons c rest ih =>
    by_cases hws : pyIsSpace c = true
    · rw [List.dropWhile_cons_of_pos hws]
      exact ih
    · rw [List.dropWhile_cons_of_neg hws]
      rw [show headNonWs (c :: rest) = !pyIsSpace c from rfl,
        Bool.not_eq_true']
      exact Bool.not_eq_true _ ▸ hws

theorem headNonWs_append_left {y s : List Char}
    (h : headNonWs (y ++ s) = true) : headNonWs y = true := by
  cases y with
  | nil => rfl
  | cons c y' => exact h

/-- On a whitespace-normal text the collapse pass is the identity. -/
theorem collapseWsF_id {l : List Char} (h : normWsB l = true) :
    ∀ fuel, collapseWsF fuel l = l := by
  induction l with
  | nil => intro fuel; cases fuel <;> rfl
  | cons c rest ih =>
    intro fuel
    cases fuel with
    | zero => rfl
    | succ fuel =>
      rw [normWsB_cons, Bool.and_eq_true] at h
      by_cases hws : pyIsSpace c = true
      · have h1 := h.1
        rw [if_pos hws, Bool.and_eq_true, decide_eq_true_eq] at h1
        obtain ⟨rfl, hhead⟩ := h1
        simp only [collapseWsF, hws, if_true,
          dropWhile_eq_self_of_headNonWs hhead]
        rw [ih h.2 fuel]
      · have hf : pyIsSpace c = false := by
          rw [← Bool.not_eq_true]
          exact hws
        simp only [collapseWsF, hf, Bool.false_eq_true, if_false]
        rw [ih h.2 fuel]

/-- The head of a collapse output is non-space when the input head is. -/
theorem headNonWs_collapseWsF {l : List Char} (h : headNonWs l = true) :
    ∀ fuel, headNonWs (collapseWsF fuel l) = true := by
  intro fuel
  cases l with
  | nil => cases fuel <;> rfl
  | cons c rest =>
    have hc : pyIsSpace c = false := by
      rw [show headNonWs (c :: rest) = !pyIsSpace c from rfl,
        Bool.not_eq_true'] at h
      exact h
    cases fuel with
    | zero => exact h
    | succ fuel =>
      simp only [collapseWsF, hc, Bool.false_eq_true, if_false]
      rw [show headNonWs (c :: collapseWsF fuel rest) = !pyIsSpace c
        from rfl, hc]
      rfl

/-- The collapse output is whitespace-normal (given enough fuel). -/
theorem normWsB_collapseWsF :
    ∀ (fuel : ℕ) (l : List Char), l.length ≤ fuel →
      normWsB (collapseWsF fuel l) = true := by
  intro fuel
  induction fuel with
  | zero =>
    intro l hl
    have : l = [] := List.length_eq_zero.mp (Nat.le_zero.mp hl)
    subst this
    rfl
  | succ fuel ih =>
    intro l hl
    cases l with
    | nil => rfl
    | cons c rest =>
      have hrest : rest.length ≤ fuel := by
        simp only [List.length_cons] at hl
        omega
      by_cases hws : pyIsSpace c = true
      · simp only [collapseWsF, hws, if_true]
        rw [normWsB_cons, Bool.and_eq_true]
        have hdlen : (rest.dropWhile pyIsSpace).length ≤ fuel :=
          le_trans (List.Sublist.length_le
            (List.dropWhile_sublist pyIsSpace)) hrest
        refine ⟨?_, ih _ hdlen⟩
        rw [if_pos (by decide : pyIsSpace ' ' = true)]
        rw [Bool.and_eq_true]
        exact ⟨by decide,
          headNonWs_collapseWsF (headNonWs_dropWhile rest) fuel⟩
      · have hf : pyIsSpace c = false := by
          rw [← Bool.not_eq_true]
          exact hws
        simp only [collapseWsF, hf, Bool.false_eq_true, if_false]
        rw [normWsB_cons, Bool.and_eq_true, hf]
        refine ⟨?_, ih rest hrest⟩
        simp

/-- Stripping preserves whitespace-normality. -/
theorem normWsB_strip {l : List Char} (h : normWsB l = true) :
    normWsB (pyStripList l) = true := by
  obtain ⟨u, v, hl, hu, hv⟩ := strip_decomp l
  rw [hl, List.append_assoc] at h
  exact normWsB_append_left (normWsB_suffix h)

/-- The stripped text has non-space ends. -/
theorem pyStrip_ends (l : List Char) :
    headNonWs (pyStripList l) = true ∧
      headNonWs (pyStripList l).reverse = true := by
  constructor
  · have h2 : List.takeWhile pyIsSpace
        (List.dropWhile pyIsSpace l).reverse ++
        List.dropWhile pyIsSpace (List.dropWhile pyIsSpace l).reverse =
        (List.dropWhile pyIsSpace l).reverse :=
      List.takeWhile_append_dropWhile pyIsSpace
        (List.dropWhile pyIsSpace l).reverse
    have h3 : List.dropWhile pyIsSpace l = pyStripList l ++
        (List.takeWhile pyIsSpace
          (List.dropWhile pyIsSpace l).reverse).reverse := by
      have h4 := congrArg List.reverse h2
      rw [List.reverse_append, List.reverse_reverse] at h4
      exact h4.symm
    have h5 := headNonWs_dropWhile l
    rw [h3] at h5
    exact headNonWs_append_left h5
  · rw [show (pyStripList l).reverse =
      List.dropWhile pyIsSpace (List.dropWhile pyIsSpace l).reverse from
      List.reverse_reverse _]
    exact headNonWs_dropWhile _

/-- A text with non-space ends strips to itself. -/
theorem pyStrip_id {l : List Char} (h1 : headNonWs l = true)
    (h2 : headNonWs l.reverse = true) : pyStripList l = l := by
  unfold pyStripList
  rw [dropWhile_eq_self_of_headNonWs h1,
    dropWhile_eq_self_of_headNonWs h2, List.reverse_reverse]

/-- `strip` is idempotent. -/
theorem pyStrip_idem (l : List Char) :
    pyStripList (pyStripList l) = pyStripList l :=
  pyStrip_id (pyStrip_ends l).1 (pyStrip_ends l).2

/-- The collapse output is a `WC`-rewrite of its input. -/
theorem WC_collapseWsF :
    ∀ (fuel : ℕ) (l : List Char), l.length ≤ fuel →
      WC l (collapseWsF fuel l) := by
  intro fuel
  induction fuel with
  | zero =>
    intro l hl
    have : l = [] := List.length_eq_zero.mp (Nat.le_zero.mp hl)
    subst this
    exact WC.nil
  | succ fuel ih =>
    intro l hl
    cases l with
    | nil => exact WC.nil
    | cons c rest =>
      have hrest : rest.length ≤ fuel := by
        simp only [List.length_cons] at hl
        omega
      by_cases hws : pyIsSpace c = true
      · simp only [collapseWsF, hws, if_true]
        have hsplit : List.takeWhile pyIsSpace rest ++
            List.dropWhile pyIsSpace rest = rest :=
          List.takeWhile_append_dropWhile pyIsSpace rest
        have hdlen : (rest.dropWhile pyIsSpace).length ≤ fuel :=
          le_trans (List.Sublist.length_le
            (List.dropWhile_sublist pyIsSpace)) hrest
        have hwc := WC.ws c (List.takeWhile pyIsSpace rest) hws
          (fun d hd => List.mem_takeWhile_imp hd)
          (ih (rest.dropWhile pyIsSpace) hdlen)
        rw [hsplit] at hwc
        exact hwc
      · have hf : pyIsSpace c = false := by
          rw [← Bool.not_eq_true]
          exact hws
        simp only [collapseWsF, hf, Bool.false_eq_true, if_false]
        exact WC.copy c hf (ih rest hrest)

/-! Per-scanner corollaries. -/

theorem SI_sub1 (l : List Char) : SI l (sub1 l) :=
  SI_runSub (fun ht => (try1_spec ht).1) l.length l

theorem SI_sub1b (l : List Char) : SI l (sub1b l) :=
  SI_runSub (fun ht => (try1b_spec ht).1) l.length l

theorem SI_sub2 (l : List Char) : SI l (sub2 l) :=
  SI_runSub (fun ht => (try2_spec ht).1) l.length l

theorem WC_collapseWs (l : List Char) : WC l (collapseWs l) :=
  WC_collapseWsF l.length l le_rfl

theorem noMB_sub1 (l : List Char) : noMB try1 (sub1 l) = true :=
  noMB_runSub try1_length try1_spec (try1_mono SI_RInv) l.length l le_rfl

theorem noMB_sub1b (l : List Char) : noMB try1b (sub1b l) = true :=
  noMB_runSub try1b_length try1b_spec (try1b_mono SI_RInv) l.length l
    le_rfl

theorem noMB_sub2 (l : List Char) : noMB try2 (sub2 l) = true :=
  noMB_runSub try2_length try2_spec (try2_mono SI_RInv) l.length l le_rfl

/-! No repair pattern matches anywhere in a cleaned text. -/

theorem noMB_try1_clean (l : List Char) :
    noMB try1 (_clean_ocr_text l) = true := by
  unfold _clean_ocr_text
  apply noMB_strip try1_app
  apply WC_RInv.noMB_transport (try1_mono WC_RInv) (WC_collapseWs _)
  apply SI_RInv.noMB_transport (try1_mono SI_RInv) (SI_sub2 _)
  apply SI_RInv.noMB_transport (try1_mono SI_RInv) (SI_sub1b _)
  exact noMB_sub1 _

theorem noMB_try1b_clean (l : List Char) :
    noMB try1b (_clean_ocr_text l) = true := by
  unfold _clean_ocr_text
  apply noMB_strip try1b_app
  apply WC_RInv.noMB_transport (try1b_mono WC_RInv) (WC_collapseWs _)
  apply SI_RInv.noMB_transport (try1b_mono SI_RInv) (SI_sub2 _)
  exact noMB_sub1b _

theorem noMB_try2_clean (l : List Char) :
    noMB try2 (_clean_ocr_text l) = true := by
  unfold _clean_ocr_text
  apply noMB_strip try2_app
  apply WC_RInv.noMB_transport (try2_mono WC_RInv) (WC_collapseWs _)
  exact noMB_sub2 _

/-- A cleaned text is whitespace-normal. -/
theorem normWs_clean (l : List Char) :
    normWsB (_clean_ocr_text l) = true := by
  unfold _clean_ocr_text
  exact normWsB_strip (normWsB_collapseWsF _ _ le_rfl)

/-! Every character of a cleaned text survives the filter and the
confusion map unchanged. -/

/-- A character the filter keeps and the confusion map fixes. -/
def goodChar (c : Char) : Bool :=
  keepChar c && decide (fixChar c = some c)

theorem fix_good {d c : Char} (hk : keepChar d = true)
    (hf : fixChar d = some c) : goodChar c = true := by
  unfold fixChar at hf
  split at hf
  · rw [Option.some.injEq] at hf
    subst hf
    decide
  · split at hf
    · rw [Option.some.injEq] at hf
      subst hf
      decide
    · split at hf
      · rw [Option.some.injEq] at hf
        subst hf
        decide
      · split at hf
        · exact Option.noConfusion hf
        · split at hf
          · exact Option.noConfusion hf
          · split at hf
            · rw [Option.some.injEq] at hf
              subst hf
              decide
            · split at hf
              · rw [Option.some.injEq] at hf
                subst hf
                decide
              · next h1 h2 h3 h4 h5 h6 h7 =>
                rw [Option.some.injEq] at hf
                subst hf
                unfold goodChar
                rw [hk, Bool.true_and, decide_eq_true_eq]
                unfold fixChar
                rw [if_neg h1, if_neg h2, if_neg h3, if_neg h4,
                  if_neg h5, if_neg h6, if_neg h7]

theorem SI_mem {l z : List Char} (h : SI l z) :
    ∀ c ∈ z, c ∈ l ∨ c = ']' := by
  induction h with
  | nil => intro c hc; exact absurd hc (List.not_mem_nil c)
  | copy e _ ih =>
    intro c hc
    rcases List.mem_cons.mp hc with rfl | hc
    · exact Or.inl (List.mem_cons_self _ _)
    · rcases ih c hc with hm | hr
      · exact Or.inl (List.mem_cons_of_mem _ hm)
      · exact Or.inr hr
  | subst e _ ih =>
    intro c hc
    rcases List.mem_cons.mp hc with rfl | hc
    · exact Or.inr rfl
    · rcases ih c hc with hm | hr
      · exact Or.inl (List.mem_cons_of_mem _ hm)
      · exact Or.inr hr
  | ins _ ih =>
    intro c hc
    rcases List.mem_cons.mp hc with rfl | hc
    · exact Or.inr rfl
    · exact ih c hc

theorem WC_mem {l z : List Char} (h : WC l z) :
    ∀ c ∈ z, c ∈ l ∨ c = ' ' := by
  induction h with
  | nil => intro c hc; exact absurd hc (List.not_mem_nil c)
  | copy e _ _ ih =>
    intro c hc
    rcases List.mem_cons.mp hc with rfl | hc
    · exact Or.inl (List.mem_cons_self _ _)
    · rcases ih c hc with hm | hr
      · exact Or.inl (List.mem_cons_of_mem _ hm)
      · exact Or.inr hr
  | ws e run _ _ _ ih =>
    intro c hc
    rcases List.mem_cons.mp hc with rfl | hc
    · exact Or.inr rfl
    · rcases ih c hc with hm | hr
      · exact Or.inl (List.mem_cons_of_mem _
          (List.mem_append_right _ hm))
      · exact Or.inr hr

theorem strip_mem {c : Char} {l : List Char}
    (h : c ∈ pyStripList l) : c ∈ l := by
  obtain ⟨u, v, hl, _, _⟩ := strip_decomp l
  rw [hl]
  exact List.mem_append.mpr (Or.inl (List.mem_append.mpr (Or.inr h)))

theorem fixfilter_good (l : List Char) :
    ∀ c ∈ (l.filter keepChar).filterMap fixChar, goodChar c = true := by
  intro c hc
  rw [List.mem_filterMap] at hc
  obtain ⟨d, hd, hf⟩ := hc
  rw [List.mem_filter] at hd
  exact fix_good hd.2 hf

theorem allGood_clean (l : List Char) :
    ∀ c ∈ _clean_ocr_text l, goodChar c = true := by
  intro c hc
  unfold _clean_ocr_text at hc
  have hc1 := strip_mem hc
  rcases WC_mem (WC_collapseWs _) c hc1 with hc2 | rfl
  · rcases SI_mem (SI_sub2 _) c hc2 with hc3 | rfl
    · rcases SI_mem (SI_sub1b _) c hc3 with hc4 | rfl
      · rcases SI_mem (SI_sub1 _) c hc4 with hc5 | rfl
        · exact fixfilter_good l c hc5
        · decide
      · decide
    · decide
  · decide

/-- On an all-good text, the filter and the confusion map are the
identity. -/
theorem fixfilter_id {y : List Char}
    (h : ∀ c ∈ y, goodChar c = true) :
    (y.filter keepChar).filterMap fixChar = y := by
  induction y with
  | nil => rfl
  | cons c y ih =>
    have hc := h c (List.mem_cons_self _ _)
    rw [goodChar, Bool.and_eq_true, decide_eq_true_eq] at hc
    rw [List.filter_cons_of_pos hc.1, List.filterMap_cons, hc.2,
      ih fun d hd => h d (List.mem_cons_of_mem _ hd)]

/-! The idempotence theorem. -/

theorem clean_idem_list (l : List Char) :
    _clean_ocr_text (_clean_ocr_text l) = _clean_ocr_text l := by
  have h1 : ((_clean_ocr_text l).filter keepChar).filterMap fixChar =
      _clean_ocr_text l := fixfilter_id (allGood_clean l)
  have h2 : sub1 (_clean_ocr_text l) = _clean_ocr_text l :=
    runSub_id (noMB_try1_clean l) _
  have h3 : sub1b (_clean_ocr_text l) = _clean_ocr_text l :=
    runSub_id (noMB_try1b_clean l) _
  have h4 : sub2 (_clean_ocr_text l) = _clean_ocr_text l :=
    runSub_id (noMB_try2_clean l) _
  have h5 : collapseWs (_clean_ocr_text l) = _clean_ocr_text l :=
    collapseWsF_id (normWs_clean l) _
  have h6 : pyStripList (_clean_ocr_text l) = _clean_ocr_text l := by
    conv_lhs => rw [_clean_ocr_text]
    rw [pyStrip_idem]
    rw [← _clean_ocr_text]
  conv_lhs => rw [_clean_ocr_text]
  rw [h1, h2, h3, h4, h5, h6]

theorem clean_ocr_idem (s : String) :
    clean_ocr (clean_ocr s) = clean_ocr s :=
  congrArg String.mk (clean_idem_list s.data)

/-- C8: the OCR cleaning pass is idempotent — applying
`_clean_ocr_text` twice gives the same result as applying it once, for
every input string. -/
theorem claim_C8 (s : String) :
    clean_ocr (clean_ocr s) = clean_ocr s :=
  clean_ocr_idem s
